import Mathlib

/-! dwstorage: admission limiter, object store and ingest pipeline

A shallow embedding of `storageapi` (limits.go, handlers.go, hash_sum.go) and
of the collaborators it calls, followed by theorems about the embedded code.

Conventions of the embedding

* Go `int` values are `Int`; the sums the code computes on them wrap at 64
  bits (`wrapInt`). A `time.Time` is an `Int` number of nanoseconds, so
  `time.Second` is `1000000000` and `a.Before b` is `a < b`.
* The `sync.Map` `currentOperations` is a function from keys to optional ticket
  sequences; the calls are taken one at a time (no interleaving), each with the
  value `time.Now()` returned when it ran.
* Go `string` values are `String` (valid UTF-8); `[]byte` is `List Nat`.
-/

namespace Storageapi

/-! ## The server record (server.go) and the middleware types (handlers.go) -/

/-- Go `[]byte`: a sequence of byte values. -/
abbrev Bytes := List Nat

/-- Go `error` values are represented by their message. -/
abbrev Error := String

/-- `PreMiddlewareFunc`: `func(data []byte) ([]byte, error)`. -/
abbrev PreMiddlewareFunc := Bytes → Except Error Bytes

/-- `PostMiddlewareFunc`: `func(data []byte) error`; `none` is the nil error. -/
abbrev PostMiddlewareFunc := Bytes → Option Error

/-- `FileEntity` of redis.go, times in nanoseconds. -/
structure FileEntity where
  Name : String
  UploadDate : Int
  RemoveDate : Int
  IsRemoved : Bool
  DownloadsCount : Int
deriving DecidableEq, Repr

/-- The metadata collaborator seen from the handlers: the error (or nil) each
call of redis.go ends with when a client is configured, and what a load finds
(`none`: no fields stored under the name). The Redis server itself is external. -/
structure RedisClient where
  createErr : String → Option Error
  updateErr : String → Option Error
  setAsDeletedErr : String → Option Error
  loadResult : String → Option (Except Error FileEntity)

/-- `FileOperationsServer` without the HTTP plumbing (`address`, `mux`); the
table `currentOperations` is threaded separately as state. -/
structure FileOperationsServer where
  WorkingDir : String
  RPSLimit : Int
  BPSLimit : Int
  PreMiddlewareFunctions : List PreMiddlewareFunc
  PostMiddlewareFunctions : List PostMiddlewareFunc
  redisClient : Option RedisClient

/-! ## limits.go -/

/-- Operation index constants (`iota` block of limits.go). -/
def UploadOperationIndex : Int := 0

/-- Second constant of the block. -/
def DownloadOperationIndex : Int := 1

/-- Third constant of the block. -/
def DeleteOperationIndex : Int := 2

/-- Fourth constant of the block. -/
def InfoOperationIndex : Int := 3

/-- Key of the table of current operations: client address and operation. -/
structure ClientOperationKey where
  IP : String
  Operation : Int
deriving DecidableEq, Repr

/-- Ticket: payload size of a request and the time it was made. -/
structure RequestTicket where
  BytesLength : Int
  Timestamp : Int
deriving DecidableEq, Repr

/-- The table `currentOperations`: the ticket sequence of each tracked key. -/
abbrev OperationsTable := ClientOperationKey → Option (List RequestTicket)

/-- The table with no window at all. -/
def emptyTable : OperationsTable := fun _ => none

/-- `sync.Map.Store`. -/
def OperationsTable.store (tbl : OperationsTable) (key : ClientOperationKey)
    (tickets : List RequestTicket) : OperationsTable :=
  fun k => if k = key then some tickets else tbl k

/-- `sync.Map.Delete`. -/
def OperationsTable.delete (tbl : OperationsTable) (key : ClientOperationKey) :
    OperationsTable :=
  fun k => if k = key then none else tbl k

/-- Value of `time.Second` in nanoseconds. -/
def Second : Int := 1000000000

/-- Result of an addition of Go `int` values on a 64-bit platform: the sum wraps
around in two's complement. -/
def wrapInt (x : Int) : Int :=
  (x + 9223372036854775808) % 18446744073709551616 - 9223372036854775808

/-- Local variables of the counting loop of `IsRequestAllowed`. -/
structure ScanState where
  rps : Int
  bps : Int
  lastActualTicket : Nat
deriving DecidableEq, Repr

/-- One iteration of `for i, ticket := range operation.tickets`. -/
def scanStep (intervalStart : Int) (st : ScanState) (i : Nat) (ticket : RequestTicket) :
    ScanState :=
  if intervalStart < ticket.Timestamp then
    { rps := wrapInt (st.rps + 1), bps := wrapInt (st.bps + ticket.BytesLength),
      lastActualTicket := i }
  else st

/-- The loop from index `i` on. -/
def scanFrom (intervalStart : Int) : Nat → List RequestTicket → ScanState → ScanState
  | _, [], st => st
  | i, ticket :: rest, st => scanFrom intervalStart (i + 1) rest (scanStep intervalStart st i ticket)

/-- The whole counting loop, started with `rps = 0`, `bps = 0`, `lastActualTicket = 0`. -/
def scanTickets (intervalStart : Int) (tickets : List RequestTicket) : ScanState :=
  scanFrom intervalStart 0 tickets { rps := 0, bps := 0, lastActualTicket := 0 }

/-- `IsRequestAllowed`: the pair `(rpsLimited, bpsLimited)` and the table after the call.
`now` is the value of `time.Now()` read by the call. -/
def IsRequestAllowed (fs : FileOperationsServer) (tbl : OperationsTable) (key : ClientOperationKey)
    (dataLength : Int) (now : Int) : (Bool × Bool) × OperationsTable :=
  if fs.BPSLimit = 0 ∧ fs.RPSLimit = 0 then ((false, false), tbl)
  else
    match tbl key with
    | none =>
      ((false, false), tbl.store key [{ BytesLength := dataLength, Timestamp := now }])
    | some tickets =>
      let intervalStart := now - Second
      let st := scanTickets intervalStart tickets
      if 0 < fs.RPSLimit ∧ fs.RPSLimit < wrapInt (st.rps + 1) then ((true, false), tbl)
      else if 0 < fs.BPSLimit ∧ fs.BPSLimit < wrapInt (st.bps + dataLength) then
        ((false, true), tbl)
      else
        ((false, false),
          tbl.store key
            (tickets.drop st.lastActualTicket ++
              [{ BytesLength := dataLength, Timestamp := now }]))

/-- The search loop of `StartTicketsCleaner` from index `i` on: the index of the
first ticket with `intervalStart` before its timestamp (the loop breaks there),
or `firstActualTicket` unchanged when there is none. -/
def firstActualFrom (intervalStart : Int) : Nat → List RequestTicket → Nat → Nat
  | _, [], firstActualTicket => firstActualTicket
  | i, ticket :: rest, firstActualTicket =>
    if intervalStart < ticket.Timestamp then i
    else firstActualFrom intervalStart (i + 1) rest firstActualTicket

/-- The body of the `Range` callback of `StartTicketsCleaner` for one key, with
`now` the clock reading of that iteration. -/
def sweepKey (tbl : OperationsTable) (key : ClientOperationKey) (now : Int) : OperationsTable :=
  match tbl key with
  | none => tbl
  | some tickets =>
    let firstActualTicket := firstActualFrom (now - Second) 0 tickets tickets.length
    if firstActualTicket = tickets.length then tbl.delete key
    else tbl.store key (tickets.drop firstActualTicket)

/-- One call of `IsRequestAllowed` as data: key, payload size, clock reading. -/
structure Call where
  key : ClientOperationKey
  dataLength : Int
  now : Int
deriving DecidableEq, Repr

/-- Table after a sequence of calls. -/
def runCalls (fs : FileOperationsServer) : OperationsTable → List Call → OperationsTable
  | tbl, [] => tbl
  | tbl, c :: cs => runCalls fs (IsRequestAllowed fs tbl c.key c.dataLength c.now).2 cs

/-- Answers of a sequence of calls, in order. -/
def callResults (fs : FileOperationsServer) : OperationsTable → List Call → List (Bool × Bool)
  | _, [] => []
  | tbl, c :: cs =>
    (IsRequestAllowed fs tbl c.key c.dataLength c.now).1 ::
      callResults fs (IsRequestAllowed fs tbl c.key c.dataLength c.now).2 cs

/-- A server with the given limits and nothing else configured. -/
def limitsOnly (rps bps : Int) : FileOperationsServer :=
  { WorkingDir := "./bin/", RPSLimit := rps, BPSLimit := bps,
    PreMiddlewareFunctions := [], PostMiddlewareFunctions := [], redisClient := none }

/-- The upload bucket of one client. -/
def sampleKey : ClientOperationKey := { IP := "10.0.0.1", Operation := UploadOperationIndex }

/-! ## hash_sum.go

`crypto/md5`, `crypto/sha1`, `crypto/sha256` and `encoding/hex` are library
code: the hex digest of each kind is a parameter. -/

/-- Hex digests of the three supported kinds. -/
structure Digests where
  md5 : Bytes → String
  sha1 : Bytes → String
  sha256 : Bytes → String

/-- `getMD5`; `hash.Write` never returns an error. -/
def getMD5 (h : Digests) (data : Bytes) : Except Error String := .ok (h.md5 data)

/-- `getSHA1`. -/
def getSHA1 (h : Digests) (data : Bytes) : Except Error String := .ok (h.sha1 data)

/-- `getSHA256`. -/
def getSHA256 (h : Digests) (data : Bytes) : Except Error String := .ok (h.sha256 data)

/-- The third `if` of `checkHashSum`. -/
def checkHashSumSha256 (h : Digests) (data : Bytes) (sha256 : String) : Option Error :=
  if sha256 ≠ "" then
    match getSHA256 h data with
    | .error err => some err
    | .ok hash => if hash ≠ sha256 then some "sha256-hashsum doesn't match" else none
  else none

/-- The second `if` of `checkHashSum` and what follows it. -/
def checkHashSumSha1 (h : Digests) (data : Bytes) (sha1 sha256 : String) : Option Error :=
  if sha1 ≠ "" then
    match getSHA1 h data with
    | .error err => some err
    | .ok hash =>
      if hash ≠ sha1 then some "sha1-hashsum doesn't match"
      else checkHashSumSha256 h data sha256
  else checkHashSumSha256 h data sha256

/-- `checkHashSum`: `none` is the nil error. -/
def checkHashSum (h : Digests) (data : Bytes) (md5 sha1 sha256 : String) : Option Error :=
  if md5 ≠ "" then
    match getMD5 h data with
    | .error err => some err
    | .ok hash =>
      if hash ≠ md5 then some "md5-hashsum doesn't match"
      else checkHashSumSha1 h data sha1 sha256
  else checkHashSumSha1 h data sha1 sha256

/-! ## The storage medium

The `os` calls of handlers.go act on a file system. It is modelled by the
regular files and the directories it holds, each under its literal path string
(no symbolic links, no `.`/`..` resolution); the medium does not fail for lack
of space or permission. -/

/-- The underlying errors of the `os` calls. The handlers distinguish
`ErrNotExist` (`os.IsNotExist`) and `ErrExist` (`os.IsExist`) from the others. -/
inductive OsError where
  | ErrNotExist
  | ErrExist
  | ErrIsDir
  | ErrNotDir
  | ErrNotEmpty
  | ErrOther
deriving DecidableEq, Repr

/-- Message of the underlying error. -/
def OsError.text : OsError → Error
  | .ErrNotExist => "no such file or directory"
  | .ErrExist => "file exists"
  | .ErrIsDir => "is a directory"
  | .ErrNotDir => "not a directory"
  | .ErrNotEmpty => "directory not empty"
  | .ErrOther => "bad file descriptor"

/-- `*os.PathError`: the operation that failed, its path and the underlying error. -/
structure PathError where
  Op : String
  Path : String
  Err : OsError
deriving DecidableEq, Repr

/-- `(*PathError).Error()`: operation, path, a colon and the message of the error. -/
def PathError.text (e : PathError) : Error :=
  e.Op ++ " " ++ e.Path ++ ": " ++ e.Err.text

/-- What a path holds: a regular file with its content, or a directory. -/
inductive Node where
  | file (data : Bytes)
  | dir
deriving DecidableEq, Repr

/-- The paths in use with what each holds (the first entry of a path counts), and
the size `Stat` reports for a directory. -/
structure FileSystem where
  entries : List (String × Node)
  dirSize : Nat

/-- What `path` holds, if anything. -/
def FileSystem.nodeAt (d : FileSystem) (path : String) : Option Node :=
  (d.entries.find? (fun e => decide (e.1 = path))).map Prod.snd

/-- Content of the regular file at `path`, if there is one. -/
def FileSystem.fileAt (d : FileSystem) (path : String) : Option Bytes :=
  match d.nodeAt path with
  | some (.file data) => some data
  | _ => none

/-- Is `path` a directory. -/
def FileSystem.isDir (d : FileSystem) (path : String) : Bool :=
  match d.nodeAt path with
  | some .dir => true
  | _ => false

/-- All paths the file system holds. -/
def FileSystem.paths (d : FileSystem) : List String :=
  d.entries.map Prod.fst

/-- The file system without `path`. -/
def FileSystem.erase (d : FileSystem) (path : String) : FileSystem :=
  { d with entries := d.entries.filter (fun e => decide (e.1 ≠ path)) }

/-- The file system with `node` at `path`, replacing what was there. -/
def FileSystem.put (d : FileSystem) (path : String) (node : Node) : FileSystem :=
  { d with entries := (path, node) :: (d.erase path).entries }

/-- Does `path` lie below directory `dir` (it starts with `dir` and a separator). -/
def below (dir path : String) : Bool :=
  (dir.data ++ ['/']).isPrefixOf path.data

/-- Part of `path` after `dir` and the separator. -/
def restOf (dir path : String) : List Char :=
  path.data.drop (dir.data.length + 1)

/-- Is `path` a direct entry of `dir`: below it, with one non-empty component. -/
def isChild (dir path : String) : Bool :=
  below dir path && !(restOf dir path).isEmpty && !(restOf dir path).contains '/'

/-- Name of the entry of `dir` through which `path` is reached. -/
def entryName (dir path : String) : String :=
  String.mk ((restOf dir path).takeWhile (fun c => c != '/'))

/-- `os.Stat` followed by `Size()`. -/
def osStat (d : FileSystem) (path : String) : Except PathError Nat :=
  match d.nodeAt path with
  | some (.file data) => .ok data.length
  | some .dir => .ok d.dirSize
  | none => .error ⟨"stat", path, .ErrNotExist⟩

/-- `os.ReadFile`. -/
def osReadFile (d : FileSystem) (path : String) : Except PathError Bytes :=
  match d.nodeAt path with
  | some (.file data) => .ok data
  | some .dir => .error ⟨"read", path, .ErrIsDir⟩
  | none => .error ⟨"open", path, .ErrNotExist⟩

/-- `os.Remove`: unlinks a file, or removes an empty directory. -/
def osRemove (d : FileSystem) (path : String) : Except PathError FileSystem :=
  match d.nodeAt path with
  | some (.file _) => .ok (d.erase path)
  | some .dir =>
    if (d.paths.filter (below path)).isEmpty then .ok (d.erase path)
    else .error ⟨"remove", path, .ErrNotEmpty⟩
  | none => .error ⟨"remove", path, .ErrNotExist⟩

/-- `os.ReadDir`: the names of the entries of a directory. -/
def osReadDir (d : FileSystem) (dir : String) : Except PathError (List String) :=
  match d.nodeAt dir with
  | some .dir => .ok (((d.paths.filter (below dir)).map (entryName dir)).dedup)
  | some (.file _) => .error ⟨"readdirent", dir, .ErrNotDir⟩
  | none => .error ⟨"open", dir, .ErrNotExist⟩

/-- `os.RemoveAll`: removes the path and everything below it; a missing path is no error. -/
def osRemoveAll (d : FileSystem) (path : String) : Except PathError FileSystem :=
  .ok { d with
    entries := d.entries.filter (fun e => decide (e.1 ≠ path) && !below path e.1) }

/-- `os.Mkdir`: the path must be free and a direct entry of an existing directory. -/
def osMkdir (d : FileSystem) (path : String) : Except PathError FileSystem :=
  match d.nodeAt path with
  | some _ => .error ⟨"mkdir", path, .ErrExist⟩
  | none =>
    if d.paths.any (fun dir => d.isDir dir && isChild dir path) then .ok (d.put path .dir)
    else .error ⟨"mkdir", path, .ErrNotExist⟩

/-- `os.OpenFile(path, os.O_WRONLY|os.O_CREATE, perm)`: an existing regular file is
opened as it is (the flags hold neither `O_EXCL` nor `O_TRUNC`), a missing one is
created empty as a direct entry of an existing directory. -/
def osOpenFile (d : FileSystem) (path : String) : Except PathError FileSystem :=
  match d.nodeAt path with
  | some (.file _) => .ok d
  | some .dir => .error ⟨"open", path, .ErrIsDir⟩
  | none =>
    if d.paths.any (fun dir => d.isDir dir && isChild dir path) then
      .ok (d.put path (.file []))
    else .error ⟨"open", path, .ErrNotExist⟩

/-- `dstFile.Write(data)` on a freshly opened file: the bytes go to offset 0 and
whatever the file held beyond them stays. -/
def fileWrite (d : FileSystem) (path : String) (data : Bytes) : Except PathError FileSystem :=
  match d.nodeAt path with
  | some (.file old) => .ok (d.put path (.file (data ++ old.drop data.length)))
  | _ => .error ⟨"write", path, .ErrOther⟩

/-! ## redis.go (package dwstorage): the calls of the metadata collaborator -/

/-- `createRedisFileEntity`: nil without a client, else the error of the `HSet`. -/
def createRedisFileEntity (fs : FileOperationsServer) (fileName : String) : Option Error :=
  match fs.redisClient with
  | none => none
  | some c => c.createErr fileName

/-- `updateRedisFileEntity`. -/
def updateRedisFileEntity (fs : FileOperationsServer) (fileName : String) : Option Error :=
  match fs.redisClient with
  | none => none
  | some c => c.updateErr fileName

/-- `setAsDeletedRedisFileEntity`. -/
def setAsDeletedRedisFileEntity (fs : FileOperationsServer) (fileName : String) : Option Error :=
  match fs.redisClient with
  | none => none
  | some c => c.setAsDeletedErr fileName

/-- Message of `ErrFileEntityNotFound`. -/
def ErrFileEntityNotFound : Error := "file entity isn't found"

/-- `loadRedisFileEntity`: the pointer (nil is `none`) and the error. -/
def loadRedisFileEntity (fs : FileOperationsServer) (fileName : String) :
    Option FileEntity × Option Error :=
  match fs.redisClient with
  | none => (none, none)
  | some c =>
    match c.loadResult fileName with
    | none => (none, some ErrFileEntityNotFound)
    | some (.error err) => (none, some err)
    | some (.ok entity) => (some entity, none)

/-! ## handlers.go -/

/-- Values a handler returns in its `any` result. -/
inductive Resp where
  | int (code : Int)
  | bytes (data : Bytes)
  | upload (Filename : String)
  | entity (e : Option FileEntity)
  | nil
deriving DecidableEq, Repr

/-- How a handler call ends: it returns `(any, error)`, it panics, or its
allocation loop is still running when the supplied candidates are used up. -/
inductive Result where
  | returned (resp : Resp) (err : Option Error)
  | panicked
  | running
deriving DecidableEq, Repr

/-- Mutable state a handler works on: the limiter table and the storage medium.
`preRuns` counts the pre-middleware invocations made so far. -/
structure World where
  table : OperationsTable
  disk : FileSystem
  preRuns : Nat

/-- What a handler call reads from its surroundings: the clock, the identifiers
`uuid.New().String()` yields in turn, the digest functions, the capacity the
runtime gives to a `[]rune` of a given length, and the index of the post
goroutine whose assignment to `lastErr` lands last. -/
structure Env where
  now : Int
  uuids : List String
  digests : Digests
  runeCap : Nat → Nat
  lastWriter : Nat

/-- The parts of `*http.Request` the handlers read. `formFile` is the outcome of
`r.FormFile` and, inside, of `io.ReadAll`; `remoteIP` the outcome of
`net.SplitHostPort(r.RemoteAddr)`. -/
structure Request where
  formFile : Except Error (Except Error Bytes)
  md5 : String
  sha1 : String
  sha256 : String
  filename : String
  remoteIP : Except Error String

/-- Result of a handler call together with the state it leaves. -/
structure Outcome where
  result : Result
  world : World

/-- HTTP status codes used by the handlers. -/
def StatusOK : Int := 200

/-- 400. -/
def StatusBadRequest : Int := 400

/-- 404. -/
def StatusNotFound : Int := 404

/-- 405. -/
def StatusMethodNotAllowed : Int := 405

/-- 429. -/
def StatusTooManyRequests : Int := 429

/-- 500. -/
def StatusInternalServerError : Int := 500

/-- `getDirectoryName`: `string([]rune(fileName)[:2])`. The slice expression is in
range when 2 does not exceed the capacity of the rune slice; positions between
its length and its capacity hold zero runes. `none` is the run-time panic. -/
def getDirectoryName (runeCap : Nat → Nat) (fileName : String) : Option String :=
  let runes := fileName.data
  if 2 ≤ runes.length then some (String.mk (runes.take 2))
  else if 2 ≤ runeCap runes.length then
    some (String.mk (runes ++ List.replicate (2 - runes.length) (Char.ofNat 0)))
  else none

/-- `checkLimitError`: status, error and the table after the admission call. -/
def checkLimitError (fs : FileOperationsServer) (tbl : OperationsTable) (r : Request)
    (operation : Int) (dataLength : Int) (now : Int) : (Int × Option Error) × OperationsTable :=
  match r.remoteIP with
  | .error err => ((StatusInternalServerError, some err), tbl)
  | .ok ip =>
    let res := IsRequestAllowed fs tbl { IP := ip, Operation := operation } dataLength now
    if res.1.1 then ((StatusTooManyRequests, some "too many requests per second"), res.2)
    else if res.1.2 then ((StatusTooManyRequests, some "too many bytes per second"), res.2)
    else ((0, none), res.2)

/-- The loop over `fs.PreMiddlewareFunctions`: the data after the last stage or the
first error, and the number of stages invoked. -/
def runPreMiddleware : List PreMiddlewareFunc → Bytes → Nat → Except Error Bytes × Nat
  | [], fileData, n => (.ok fileData, n)
  | f :: rest, fileData, n =>
    match f fileData with
    | .error err => (.error err, n + 1)
    | .ok out => runPreMiddleware rest out (n + 1)

/-- `os.Mkdir` as the allocation loop uses it: an error is fatal unless it is an
is-exist error, which leaves the medium as it was. -/
def mkdirUnlessExists (disk : FileSystem) (dirPath : String) : Except PathError FileSystem :=
  match osMkdir disk dirPath with
  | .ok d => .ok d
  | .error err => if err.Err = .ErrExist then .ok disk else .error err

/-- How the allocation loop of `uploadHandler` ends. -/
inductive Allocation where
  | opened (fileName : String) (filePath : String) (disk : FileSystem)
  | failed (err : PathError) (disk : FileSystem)
  | panicked (disk : FileSystem)
  | running (disk : FileSystem)

/-- The `for` loop of `uploadHandler`, one iteration per candidate identifier. -/
def allocate (workingDir : String) (runeCap : Nat → Nat) :
    List String → FileSystem → Allocation
  | [], disk => .running disk
  | fileName :: more, disk =>
    match getDirectoryName runeCap fileName with
    | none => .panicked disk
    | some dirName =>
      let dirPath := workingDir ++ dirName
      match mkdirUnlessExists disk dirPath with
      | .error err => .failed err disk
      | .ok disk1 =>
        match osOpenFile disk1 (dirPath ++ "/" ++ fileName) with
        | .ok disk2 => .opened fileName (dirPath ++ "/" ++ fileName) disk2
        | .error err =>
          if err.Err = .ErrExist then allocate workingDir runeCap more disk1
          else .failed err disk1

/-- Value of `lastErr` after `wg.Wait()`: every post goroutine assigns its result
to the shared variable, the assignment that lands last stays. -/
def lastErrAfterWait (post : List PostMiddlewareFunc) (lastWriter : Nat) (fileData : Bytes) :
    Option Error :=
  match post[lastWriter % post.length]? with
  | none => none
  | some function => function fileData

/-- `uploadHandler` from the write on: the file is open at `filePath`. -/
def uploadFinish (fs : FileOperationsServer) (env : Env) (w : World)
    (fileName filePath : String) (fileData : Bytes) : Outcome :=
  match fileWrite w.disk filePath fileData with
  | .error err => ⟨.returned (.int StatusInternalServerError) (some err.text), w⟩
  | .ok disk =>
    let w1 := { w with disk := disk }
    let lastErr := lastErrAfterWait fs.PostMiddlewareFunctions env.lastWriter fileData
    let err := createRedisFileEntity fs fileName
    if err ≠ none then ⟨.returned (.int StatusInternalServerError) err, w1⟩
    else if lastErr ≠ none then ⟨.returned (.int StatusInternalServerError) err, w1⟩
    else ⟨.returned (.upload fileName) none, w1⟩

/-- `uploadHandler`. -/
def uploadHandler (fs : FileOperationsServer) (env : Env) (w : World) (r : Request) : Outcome :=
  match r.formFile with
  | .error _ =>
    ⟨.returned (.int StatusBadRequest)
      (some "param 'file' is invalid (must be a multipart-form file)"), w⟩
  | .ok (.error err) => ⟨.returned (.int StatusInternalServerError) (some err), w⟩
  | .ok (.ok fileData) =>
    if fileData.length = 0 then
      ⟨.returned (.int StatusBadRequest) (some "param 'file' is empty"), w⟩
    else
      let lim := checkLimitError fs w.table r UploadOperationIndex fileData.length env.now
      let w1 := { w with table := lim.2 }
      if lim.1.2 ≠ none then ⟨.returned (.int lim.1.1) lim.1.2, w1⟩
      else
        match checkHashSum env.digests fileData r.md5 r.sha1 r.sha256 with
        | some err => ⟨.returned (.int StatusBadRequest) (some err), w1⟩
        | none =>
          let pre := runPreMiddleware fs.PreMiddlewareFunctions fileData 0
          let w2 := { w1 with preRuns := w1.preRuns + pre.2 }
          match pre.1 with
          | .error err => ⟨.returned (.int StatusInternalServerError) (some err), w2⟩
          | .ok fileData =>
            match allocate fs.WorkingDir env.runeCap env.uuids w2.disk with
            | .running disk => ⟨.running, { w2 with disk := disk }⟩
            | .panicked disk => ⟨.panicked, { w2 with disk := disk }⟩
            | .failed err disk =>
              ⟨.returned (.int StatusInternalServerError) (some err.text), { w2 with disk := disk }⟩
            | .opened fileName filePath disk =>
              uploadFinish fs env { w2 with disk := disk } fileName filePath fileData

/-- `downloadHandler`. -/
def downloadHandler (fs : FileOperationsServer) (env : Env) (w : World) (r : Request) : Outcome :=
  let fileName := r.filename
  if fileName.utf8ByteSize < 2 then
    ⟨.returned (.int StatusBadRequest) (some "too short file name (url-value 'file')"), w⟩
  else
    match getDirectoryName env.runeCap fileName with
    | none => ⟨.panicked, w⟩
    | some dirName =>
      let dirPath := fs.WorkingDir ++ dirName
      let filePath := dirPath ++ "/" ++ fileName
      match osStat w.disk filePath with
      | .error err => ⟨.returned (.int StatusInternalServerError) (some err.text), w⟩
      | .ok size =>
        let lim := checkLimitError fs w.table r DownloadOperationIndex size env.now
        let w1 := { w with table := lim.2 }
        if lim.1.2 ≠ none then ⟨.returned (.int lim.1.1) lim.1.2, w1⟩
        else
          match updateRedisFileEntity fs fileName with
          | some err => ⟨.returned (.int StatusInternalServerError) (some err), w1⟩
          | none =>
            match osReadFile w1.disk filePath with
            | .error err =>
              if err.Err = .ErrNotExist then ⟨.returned (.int StatusNotFound) (some err.text), w1⟩
              else ⟨.returned (.int StatusInternalServerError) (some err.text), w1⟩
            | .ok data => ⟨.returned (.bytes data) none, w1⟩

/-- `deleteHandler` from `os.ReadDir` on: the object file is removed already. -/
def deleteCleanup (fs : FileOperationsServer) (w : World) (fileName fileDir : String) : Outcome :=
  match osReadDir w.disk fileDir with
  | .error err =>
    if err.Err = .ErrNotExist then ⟨.returned (.int StatusNotFound) (some err.text), w⟩
    else ⟨.returned (.int StatusInternalServerError) (some err.text), w⟩
  | .ok dir =>
    let cleaned : Except PathError FileSystem :=
      if dir.length = 0 then osRemoveAll w.disk fileDir else .ok w.disk
    match cleaned with
    | .error err => ⟨.returned (.int StatusInternalServerError) (some err.text), w⟩
    | .ok disk =>
      let w1 := { w with disk := disk }
      match setAsDeletedRedisFileEntity fs fileName with
      | some err => ⟨.returned .nil (some err), w1⟩
      | none => ⟨.returned .nil none, w1⟩

/-- `deleteHandler`. -/
def deleteHandler (fs : FileOperationsServer) (env : Env) (w : World) (r : Request) : Outcome :=
  let fileName := r.filename
  if fileName.utf8ByteSize < 2 then
    ⟨.returned (.int StatusBadRequest) (some "too short file name (url-value 'file')"), w⟩
  else
    match getDirectoryName env.runeCap fileName with
    | none => ⟨.panicked, w⟩
    | some dirName =>
      let fileDir := fs.WorkingDir ++ dirName
      let filePath := fs.WorkingDir ++ dirName ++ "/" ++ fileName
      match osStat w.disk filePath with
      | .error err => ⟨.returned (.int StatusInternalServerError) (some err.text), w⟩
      | .ok size =>
        let lim := checkLimitError fs w.table r DeleteOperationIndex size env.now
        let w1 := { w with table := lim.2 }
        if lim.1.2 ≠ none then ⟨.returned (.int lim.1.1) lim.1.2, w1⟩
        else
          match osRemove w1.disk filePath with
          | .error err =>
            if err.Err = .ErrNotExist then ⟨.returned (.int StatusNotFound) (some err.text), w1⟩
            else ⟨.returned (.int StatusInternalServerError) (some err.text), w1⟩
          | .ok disk => deleteCleanup fs { w1 with disk := disk } fileName fileDir

/-- `infoHandler`. -/
def infoHandler (fs : FileOperationsServer) (env : Env) (w : World) (r : Request) : Outcome :=
  let fileName := r.filename
  if fileName.utf8ByteSize < 2 then
    ⟨.returned (.int StatusBadRequest) (some "too short file name (url-value 'file')"), w⟩
  else
    let lim := checkLimitError fs w.table r InfoOperationIndex 0 env.now
    let w1 := { w with table := lim.2 }
    if lim.1.2 ≠ none then ⟨.returned (.int lim.1.1) lim.1.2, w1⟩
    else if fs.redisClient.isNone then
      ⟨.returned (.int StatusMethodNotAllowed)
        (some "service is running in without-meta-data-mode"), w1⟩
    else
      let loaded := loadRedisFileEntity fs fileName
      if loaded.2 = some ErrFileEntityNotFound then
        ⟨.returned (.int StatusNotFound) loaded.2, w1⟩
      else if loaded.2 ≠ none then
        ⟨.returned (.int StatusInternalServerError) loaded.2, w1⟩
      else ⟨.returned (.entity loaded.1) none, w1⟩

/-- Body written by `WrapHandler`: an error text, raw bytes, or the JSON encoding
of a value. -/
inductive Body where
  | text (msg : Error)
  | raw (data : Bytes)
  | json (value : Resp)
deriving DecidableEq, Repr

/-- What the client of `WrapHandler` observes. -/
inductive HttpResult where
  | response (status : Int) (body : Body)
  | panicked
  | running
deriving DecidableEq, Repr

/-- `WrapHandler` applied to the result of the wrapped handler. `resp.(int)`
panics when `resp` holds no `int`; `json.Marshal` does not fail on the values the
handlers return. -/
def WrapHandler (res : Result) : HttpResult :=
  match res with
  | .panicked => .panicked
  | .running => .running
  | .returned resp (some err) =>
    match resp with
    | .int code => .response code (.text err)
    | _ => .panicked
  | .returned resp none =>
    match resp with
    | .bytes rawData => .response StatusOK (.raw rawData)
    | other => .response StatusOK (.json other)

/-- Path of the object named `fileName`, as the handlers build it. -/
def objectPath (fs : FileOperationsServer) (runeCap : Nat → Nat) (fileName : String) :
    Option String :=
  (getDirectoryName runeCap fileName).map (fun dirName => fs.WorkingDir ++ dirName ++ "/" ++ fileName)

/-- `bytes.ToUpper` as used by the test's pre stage: on input that is all ASCII the
lower-case letters are shifted to upper case; other input goes through the
Unicode mapping `upperUnicode`, which is library code. -/
def bytesToUpper (upperUnicode : Bytes → Bytes) (s : Bytes) : Bytes :=
  if s.all (fun c => decide (c < 128)) then
    s.map (fun c => if 97 ≤ c ∧ c ≤ 122 then c - 32 else c)
  else upperUnicode s

/-- The pre stage registered in `TestMain`. -/
def capitalize (upperUnicode : Bytes → Bytes) : PreMiddlewareFunc :=
  fun data => .ok (bytesToUpper upperUnicode data)

/-- Bytes of an ASCII string literal. -/
def asciiBytes (s : String) : Bytes := s.data.map Char.toNat

/-- Is the character a lower-case hexadecimal digit. -/
def isHexDigit (c : Char) : Bool :=
  (decide ('0' ≤ c) && decide (c ≤ '9')) || (decide ('a' ≤ c) && decide (c ≤ 'f'))

/-- Is the string of the form `uuid.New().String()` yields: 36 characters, each a
hexadecimal digit or `-`, with `-` exactly at positions 8, 13, 18 and 23. -/
def isUUIDString (s : String) : Bool :=
  decide (s.data.length = 36) &&
    s.data.all (fun c => c == '-' || isHexDigit c) &&
    s.data.enum.all (fun p => (p.2 == '-') == (p.1 == 8 || p.1 == 13 || p.1 == 18 || p.1 == 23))

/-! ## Sample values used in the evaluations -/

/-- Digest functions of a run in which no digest is supplied. -/
def sampleDigests : Digests :=
  { md5 := fun _ => "d41d8cd9", sha1 := fun _ => "da39a3ee", sha256 := fun _ => "e3b0c442" }

/-- An identifier as `uuid.New().String()` yields it. -/
def sampleId : String := "ab3e0c1d-5f72-4a6b-9c8d-0e1f2a3b4c5d"

/-- Another generated identifier. -/
def otherId : String := "7c1b2a90-0d4e-4f6a-8b3c-9e8d7c6b5a40"

/-- Capacity the gc runtime gives the rune slice of `[]rune(s)` when the result
does not escape, as in `getDirectoryName`: the conversion goes into a buffer of
32 runes when the string has at most 32 characters, and into an allocation of at
least the length otherwise. -/
def gcRuneCap (n : Nat) : Nat := max n 32

/-- Surroundings of a call: clock at `now`, the two identifiers to be generated. -/
def sampleEnv (now : Int) : Env :=
  { now := now, uuids := [sampleId, otherId], digests := sampleDigests,
    runeCap := gcRuneCap, lastWriter := 0 }

/-- A store with no object: the storage root `./bin` and nothing in it. -/
def emptyWorld : World :=
  { table := emptyTable, disk := { entries := [("./bin", .dir)], dirSize := 4096 },
    preRuns := 0 }

/-- A medium on which the storage root does not exist. -/
def noRootWorld : World :=
  { table := emptyTable, disk := { entries := [], dirSize := 4096 }, preRuns := 0 }

/-- A store that holds the object `sampleId` with content `1, 2, 3`. -/
def oneObjectWorld : World :=
  { table := emptyTable,
    disk := { entries := [("./bin", .dir), ("./bin/ab", .dir),
                          ("./bin/ab/" ++ sampleId, .file [1, 2, 3])],
              dirSize := 4096 },
    preRuns := 0 }

/-- A download, delete or info request for `name`. -/
def requestFor (name : String) : Request :=
  { formFile := .error "no multipart form", md5 := "", sha1 := "", sha256 := "",
    filename := name, remoteIP := .ok "10.0.0.1" }

/-- An upload request with payload `data` and the given digests. -/
def uploadRequest (data : Bytes) (md5 sha1 sha256 : String) : Request :=
  { formFile := .ok (.ok data), md5 := md5, sha1 := sha1, sha256 := sha256,
    filename := "", remoteIP := .ok "10.0.0.1" }

/-- A server without limits whose only post stage fails. -/
def failingPostServer : FileOperationsServer :=
  { limitsOnly 0 0 with PostMiddlewareFunctions := [fun _ => some "post stage failed"] }

/-- A server with a metadata client whose create call fails. -/
def failingCreateServer : FileOperationsServer :=
  { limitsOnly 0 0 with
    redisClient := some
      { createErr := fun _ => some "redis: connection refused", updateErr := fun _ => none,
        setAsDeletedErr := fun _ => none, loadResult := fun _ => none } }

/-- The server of `TestMain`: no limits, the upper-casing pre stage. -/
def testServer : FileOperationsServer :=
  { limitsOnly 0 0 with PreMiddlewareFunctions := [capitalize (fun s => s)] }

/-- A server with a metadata client whose mark-removed call fails. -/
def failingMarkRemovedServer : FileOperationsServer :=
  { limitsOnly 0 0 with
    redisClient := some
      { createErr := fun _ => none, updateErr := fun _ => none,
        setAsDeletedErr := fun _ => some "redis: connection refused",
        loadResult := fun _ => none } }

/-- Components of a path: the pieces between separators. -/
def splitPath : List Char → List (List Char)
  | [] => [[]]
  | c :: cs =>
    if c = '/' then [] :: splitPath cs
    else
      match splitPath cs with
      | [] => [[c]]
      | first :: more => (c :: first) :: more

/-- Does the string contain a path separator. -/
def hasSeparator (s : String) : Bool := s.data.contains '/'

/-- Is one of the components of the string the parent reference `..`. -/
def hasParentComponent (s : String) : Bool := (splitPath s.data).contains ['.', '.']

/-- A store with a file outside the shard directories, two levels above the root. -/
def outsideWorld : World :=
  { table := emptyTable,
    disk := { entries := [("./bin/../../../etc/passwd", .file [114, 111, 111, 116])],
              dirSize := 4096 },
    preRuns := 0 }

end Storageapi

/-! # Theorems -/

namespace Storageapi

/-! ## Admission limiter -/

/-- The request count and the byte sum the counting loop ends with depend only on
the tickets inside the window. -/
theorem scanFrom_counts (start : Int) (tickets : List RequestTicket) :
    ∀ (i j : Nat) (st st2 : ScanState), st.rps = st2.rps → st.bps = st2.bps →
      (scanFrom start i tickets st).rps
        = (scanFrom start j (tickets.filter (fun t => decide (start < t.Timestamp))) st2).rps ∧
      (scanFrom start i tickets st).bps
        = (scanFrom start j (tickets.filter (fun t => decide (start < t.Timestamp))) st2).bps := by
  induction tickets with
  | nil =>
    intro i j st st2 h1 h2
    simp [scanFrom, h1, h2]
  | cons t rest ih =>
    intro i j st st2 h1 h2
    by_cases hin : start < t.Timestamp
    · simp only [List.filter_cons, hin, decide_True, if_true, scanFrom]
      apply ih
      · simp [scanStep, hin, h1]
      · simp [scanStep, hin, h2]
    · have hstep : scanStep start st i t = st := by simp [scanStep, hin]
      simp only [List.filter_cons, hin, decide_False, scanFrom, hstep]
      exact ih (i + 1) j st st2 h1 h2

theorem scanTickets_filter (start : Int) (tickets : List RequestTicket) :
    (scanTickets start tickets).rps
      = (scanTickets start (tickets.filter (fun t => decide (start < t.Timestamp)))).rps ∧
    (scanTickets start tickets).bps
      = (scanTickets start (tickets.filter (fun t => decide (start < t.Timestamp)))).bps :=
  scanFrom_counts start tickets 0 0 _ _ rfl rfl

/-- C1, the code at the failing input: with RPS limit 3 and no byte limit, four
calls for one key at clock readings 0, 1, 2, 3 ns are all allowed (no denial,
where the claim has the fourth denied), and the window then holds only the last
two tickets. -/
theorem rps_three_admits_fourth_call :
    callResults (limitsOnly 3 0) emptyTable
        [⟨sampleKey, 10, 0⟩, ⟨sampleKey, 20, 1⟩, ⟨sampleKey, 30, 2⟩, ⟨sampleKey, 40, 3⟩]
      = [(false, false), (false, false), (false, false), (false, false)] ∧
    runCalls (limitsOnly 3 0) emptyTable
        [⟨sampleKey, 10, 0⟩, ⟨sampleKey, 20, 1⟩, ⟨sampleKey, 30, 2⟩, ⟨sampleKey, 40, 3⟩] sampleKey
      = some [⟨30, 2⟩, ⟨40, 3⟩] := by
  decide

/-- C2, the code at the failing input: with byte limit 3 and no RPS limit, three
admitted one-byte requests (sum exactly 3) inside one window are followed by a
fourth one-byte request that is allowed as well instead of being denied with
bandwidth-exceeded; the scan of the window before that call counts 2 bytes. -/
theorem bps_three_admits_after_full_budget :
    callResults (limitsOnly 0 3) emptyTable
        [⟨sampleKey, 1, 0⟩, ⟨sampleKey, 1, 1⟩, ⟨sampleKey, 1, 2⟩, ⟨sampleKey, 1, 3⟩]
      = [(false, false), (false, false), (false, false), (false, false)] ∧
    (runCalls (limitsOnly 0 3) emptyTable
        [⟨sampleKey, 1, 0⟩, ⟨sampleKey, 1, 1⟩, ⟨sampleKey, 1, 2⟩] sampleKey).map
        (fun tickets => (scanTickets (3 - Second) tickets).bps) = some 2 := by
  decide

/-- C3, the code at the failing input: with byte limit 1 the first request of a
key carries 2 bytes; it takes the branch for a key without window, which records
the ticket with no limit check, so it is admitted although it alone exceeds the
limit. A zero-byte request for the same key at the same instant then returns
bandwidth-exceeded, since the scan counts 2 bytes and 2 + 0 > 1. The path for a
key that has a window does check: the same 2-byte request against a window
without tickets is denied. -/
theorem zero_byte_denied_after_oversize_first :
    (IsRequestAllowed (limitsOnly 0 1) emptyTable sampleKey 2 0).1 = (false, false) ∧
    runCalls (limitsOnly 0 1) emptyTable [⟨sampleKey, 2, 0⟩] sampleKey = some [⟨2, 0⟩] ∧
    (IsRequestAllowed (limitsOnly 0 1)
        (runCalls (limitsOnly 0 1) emptyTable [⟨sampleKey, 2, 0⟩]) sampleKey 0 0).1
      = (false, true) ∧
    (IsRequestAllowed (limitsOnly 0 1) (emptyTable.store sampleKey []) sampleKey 2 0).1
      = (false, true) := by
  decide

/-- C4: whenever `IsRequestAllowed` returns rate-exceeded or bandwidth-exceeded the
table after the call is the table before it (the ticket sequence of every key
is unchanged), so any following call at the same instant gets the answer and
leaves the table it would have without the denied call. -/
theorem denied_request_consumes_no_budget (fs : FileOperationsServer) (tbl : OperationsTable)
    (key : ClientOperationKey) (dataLength now : Int)
    (hdenied : (IsRequestAllowed fs tbl key dataLength now).1 = (true, false) ∨
      (IsRequestAllowed fs tbl key dataLength now).1 = (false, true)) :
    (IsRequestAllowed fs tbl key dataLength now).2 = tbl ∧
    (∀ k, (IsRequestAllowed fs tbl key dataLength now).2 k = tbl k) ∧
    ∀ key2 dataLength2,
      IsRequestAllowed fs (IsRequestAllowed fs tbl key dataLength now).2 key2 dataLength2 now
        = IsRequestAllowed fs tbl key2 dataLength2 now := by
  have hsame : (IsRequestAllowed fs tbl key dataLength now).2 = tbl := by
    revert hdenied
    unfold IsRequestAllowed
    split
    · simp
    · split
      · simp
      · simp only []
        split
        · simp
        · split
          · simp
          · simp
  refine ⟨hsame, fun k => by rw [hsame], fun key2 dataLength2 => by rw [hsame]⟩

/-- C4 at a concrete denial: RPS limit 1, one ticket recorded at time 0, a second
call at time 5 ns is rate-limited. -/
theorem denied_request_consumes_no_budget_witness :
    ((IsRequestAllowed (limitsOnly 1 0)
          (runCalls (limitsOnly 1 0) emptyTable [⟨sampleKey, 7, 0⟩]) sampleKey 9 5).1 = (true, false) ∨
      (IsRequestAllowed (limitsOnly 1 0)
          (runCalls (limitsOnly 1 0) emptyTable [⟨sampleKey, 7, 0⟩]) sampleKey 9 5).1 = (false, true)) ∧
    (IsRequestAllowed (limitsOnly 1 0)
        (runCalls (limitsOnly 1 0) emptyTable [⟨sampleKey, 7, 0⟩]) sampleKey 9 5).2
      = runCalls (limitsOnly 1 0) emptyTable [⟨sampleKey, 7, 0⟩] :=
  ⟨by decide,
    (denied_request_consumes_no_budget (limitsOnly 1 0)
      (runCalls (limitsOnly 1 0) emptyTable [⟨sampleKey, 7, 0⟩]) sampleKey 9 5 (by decide)).1⟩

/-! ## Object store and ingest pipeline: the code at concrete inputs -/

/-- C5, the code at the failing input: without limits, on a store that holds no
object, `downloadHandler` and `deleteHandler` for a well-formed identifier answer
500, not 404; and after a successful delete of a stored object the second delete
of the same identifier answers 500 as well. -/
theorem missing_object_is_reported_as_500 :
    WrapHandler (downloadHandler (limitsOnly 0 0) (sampleEnv 0) emptyWorld (requestFor sampleId)).result
      = .response 500 (.text "stat ./bin/ab/ab3e0c1d-5f72-4a6b-9c8d-0e1f2a3b4c5d: no such file or directory") ∧
    WrapHandler (deleteHandler (limitsOnly 0 0) (sampleEnv 0) emptyWorld (requestFor sampleId)).result
      = .response 500 (.text "stat ./bin/ab/ab3e0c1d-5f72-4a6b-9c8d-0e1f2a3b4c5d: no such file or directory") ∧
    WrapHandler (deleteHandler (limitsOnly 0 0) (sampleEnv 0) oneObjectWorld (requestFor sampleId)).result
      = .response 200 (.json .nil) ∧
    WrapHandler (deleteHandler (limitsOnly 0 0) (sampleEnv 1)
        (deleteHandler (limitsOnly 0 0) (sampleEnv 0) oneObjectWorld (requestFor sampleId)).world
        (requestFor sampleId)).result
      = .response 500 (.text "stat ./bin/ab/ab3e0c1d-5f72-4a6b-9c8d-0e1f2a3b4c5d: no such file or directory") := by
  decide

/-- C6, the code at the failing input: the store holds object `sampleId` with
content `1, 2, 3` and the next generated identifier is `sampleId` again. The
upload of the one-byte payload `9` does not retry with the following identifier:
it answers with `sampleId` and the stored object now reads `9, 2, 3`. -/
theorem colliding_identifier_overwrites_object :
    oneObjectWorld.disk.fileAt ("./bin/ab/" ++ sampleId) = some [1, 2, 3] ∧
    (uploadHandler (limitsOnly 0 0) (sampleEnv 0) oneObjectWorld (uploadRequest [9] "" "" "")).result
      = .returned (.upload sampleId) none ∧
    (uploadHandler (limitsOnly 0 0) (sampleEnv 0) oneObjectWorld
        (uploadRequest [9] "" "" "")).world.disk.fileAt ("./bin/ab/" ++ sampleId)
      = some [9, 2, 3] := by
  decide

/-- C7, the code at the failing input: one registered post stage that returns an
error, everything before it succeeds. `uploadHandler` returns the pair
`(500, nil)`, which `WrapHandler` answers with status 200 and the JSON body `500`;
the object is stored. -/
theorem failing_post_stage_answers_200 :
    (uploadHandler failingPostServer (sampleEnv 0) emptyWorld (uploadRequest [9] "" "" "")).result
      = .returned (.int 500) none ∧
    WrapHandler (uploadHandler failingPostServer (sampleEnv 0) emptyWorld
        (uploadRequest [9] "" "" "")).result
      = .response 200 (.json (.int 500)) ∧
    (uploadHandler failingPostServer (sampleEnv 0) emptyWorld
        (uploadRequest [9] "" "" "")).world.disk.fileAt ("./bin/ab/" ++ sampleId)
      = some [9] := by
  decide

/-! ## Digest gate -/

theorem checkHashSumSha256_ne_none (h : Digests) (data : Bytes) (sha256 : String) :
    checkHashSumSha256 h data sha256 ≠ none ↔ (sha256 ≠ "" ∧ sha256 ≠ h.sha256 data) := by
  unfold checkHashSumSha256 getSHA256
  by_cases h1 : sha256 = ""
  · simp [h1]
  · by_cases h2 : h.sha256 data = sha256
    · simp [h1, h2]
    · simp [h1, h2]
      exact fun h3 => h2 h3.symm

theorem checkHashSumSha1_ne_none (h : Digests) (data : Bytes) (sha1 sha256 : String) :
    checkHashSumSha1 h data sha1 sha256 ≠ none ↔
      (sha1 ≠ "" ∧ sha1 ≠ h.sha1 data) ∨ (sha256 ≠ "" ∧ sha256 ≠ h.sha256 data) := by
  have h256 := checkHashSumSha256_ne_none h data sha256
  unfold checkHashSumSha1 getSHA1
  by_cases h1 : sha1 = ""
  · simpa [h1] using h256
  · by_cases h2 : h.sha1 data = sha1
    · simpa [h1, h2] using h256
    · have h3 : ¬ sha1 = h.sha1 data := fun e => h2 e.symm
      simp [h1, h2, h3]

theorem checkHashSum_ne_none (h : Digests) (data : Bytes) (md5 sha1 sha256 : String) :
    checkHashSum h data md5 sha1 sha256 ≠ none ↔
      (md5 ≠ "" ∧ md5 ≠ h.md5 data) ∨ (sha1 ≠ "" ∧ sha1 ≠ h.sha1 data) ∨
        (sha256 ≠ "" ∧ sha256 ≠ h.sha256 data) := by
  have hrest := checkHashSumSha1_ne_none h data sha1 sha256
  unfold checkHashSum getMD5
  by_cases h1 : md5 = ""
  · simpa [h1] using hrest
  · by_cases h2 : h.md5 data = md5
    · simpa [h1, h2] using hrest
    · have h3 : ¬ md5 = h.md5 data := fun e => h2 e.symm
      simp [h1, h2, h3]

/-- C9: `checkHashSum` returns an error exactly when some non-empty supplied digest
string differs from the hex digest of the payload of its kind; and when it does
for an upload that got as far as the digest check (form file read, not empty,
admitted), `uploadHandler` returns 400 (answered as 400), the storage medium is
unchanged and no pre stage has been invoked. -/
theorem digest_gate (fs : FileOperationsServer) (env : Env) (w : World) (r : Request)
    (fileData : Bytes) :
    (checkHashSum env.digests fileData r.md5 r.sha1 r.sha256 ≠ none ↔
      (r.md5 ≠ "" ∧ r.md5 ≠ env.digests.md5 fileData) ∨
      (r.sha1 ≠ "" ∧ r.sha1 ≠ env.digests.sha1 fileData) ∨
      (r.sha256 ≠ "" ∧ r.sha256 ≠ env.digests.sha256 fileData)) ∧
    (r.formFile = .ok (.ok fileData) → fileData ≠ [] →
      (checkLimitError fs w.table r UploadOperationIndex fileData.length env.now).1.2 = none →
      checkHashSum env.digests fileData r.md5 r.sha1 r.sha256 ≠ none →
      (∃ err, (uploadHandler fs env w r).result = .returned (.int 400) (some err) ∧
        WrapHandler (uploadHandler fs env w r).result = .response 400 (.text err)) ∧
      (uploadHandler fs env w r).world.disk = w.disk ∧
      (uploadHandler fs env w r).world.preRuns = w.preRuns) := by
  refine ⟨checkHashSum_ne_none _ _ _ _ _, fun hform hne hlim hsum => ?_⟩
  have hlen : ¬ fileData.length = 0 := fun h => hne (List.length_eq_zero.mp h)
  obtain ⟨err, herr⟩ := Option.ne_none_iff_exists'.mp hsum
  unfold uploadHandler
  simp only [hform, hlen, hlim, herr]
  simp [WrapHandler, StatusBadRequest]

/-- C9 at a concrete upload: the payload `9` with the md5 string `00000000`, which
differs from the digest of the run. -/
theorem digest_gate_witness :
    (uploadRequest [9] "00000000" "" "").formFile = .ok (.ok [9]) ∧ ([9] : Bytes) ≠ [] ∧
    (checkLimitError (limitsOnly 0 0) emptyWorld.table (uploadRequest [9] "00000000" "" "")
        UploadOperationIndex ([9] : Bytes).length (sampleEnv 0).now).1.2 = none ∧
    checkHashSum (sampleEnv 0).digests [9] "00000000" "" "" ≠ none ∧
    (uploadHandler (limitsOnly 0 0) (sampleEnv 0) emptyWorld
        (uploadRequest [9] "00000000" "" "")).world.disk = emptyWorld.disk :=
  ⟨rfl, by decide, by decide, by decide,
    ((digest_gate (limitsOnly 0 0) (sampleEnv 0) emptyWorld (uploadRequest [9] "00000000" "" "")
      [9]).2 rfl (by decide) (by decide) (by decide)).2.1⟩

/-! ## Storage medium -/

theorem find_filter_key (es : List (String × Node)) (P : String → Bool) (q : String) :
    (es.filter (fun e => P e.1)).find? (fun e => decide (e.1 = q)) =
      if P q then es.find? (fun e => decide (e.1 = q)) else none := by
  induction es with
  | nil => simp
  | cons e rest ih =>
    by_cases hP : P e.1 = true
    · rw [List.filter_cons_of_pos (by simpa using hP)]
      by_cases he : e.1 = q
      · subst he
        simp [List.find?_cons, hP]
      · simp only [List.find?_cons, he, decide_False]
        exact ih
    · rw [List.filter_cons_of_neg (by simpa using hP)]
      by_cases he : e.1 = q
      · subst he
        rw [ih]
        simp [hP]
      · simp only [List.find?_cons, he, decide_False]
        exact ih

theorem nodeAt_erase (d : FileSystem) (p q : String) :
    (d.erase p).nodeAt q = if q = p then none else d.nodeAt q := by
  unfold FileSystem.erase FileSystem.nodeAt
  have h := find_filter_key d.entries (fun x => decide (x ≠ p)) q
  simp only [] at h ⊢
  rw [h]
  by_cases hq : q = p <;> simp [hq]

theorem nodeAt_put (d : FileSystem) (p q : String) (n : Node) :
    (d.put p n).nodeAt q = if q = p then some n else d.nodeAt q := by
  by_cases hq : q = p
  · subst hq
    simp [FileSystem.put, FileSystem.nodeAt]
  · have hpq : ¬ p = q := fun e => hq e.symm
    have := nodeAt_erase d p q
    simp only [FileSystem.nodeAt] at this
    simp [FileSystem.put, FileSystem.nodeAt, List.find?_cons, hpq, hq, this]

theorem mem_paths_of_nodeAt (d : FileSystem) (p : String) (n : Node)
    (h : d.nodeAt p = some n) : p ∈ d.paths := by
  unfold FileSystem.nodeAt at h
  cases hf : d.entries.find? (fun e => decide (e.1 = p)) with
  | none => simp [hf] at h
  | some e =>
    have hmem := List.mem_of_find?_eq_some hf
    have hkey := List.find?_some hf
    simp at hkey
    unfold FileSystem.paths
    exact List.mem_map.mpr ⟨e, hmem, hkey⟩

theorem data_path (shard id : String) :
    (shard ++ "/" ++ id).data = (shard.data ++ ['/']) ++ id.data := by
  simp [String.data_append]

theorem below_path (shard id : String) : below shard (shard ++ "/" ++ id) = true := by
  unfold below
  rw [data_path, List.isPrefixOf_iff_prefix]
  exact List.prefix_append _ _

theorem restOf_path (shard id : String) : restOf shard (shard ++ "/" ++ id) = id.data := by
  unfold restOf
  rw [data_path]
  exact List.drop_left' (by simp)

theorem isChild_path (shard id : String) (hne : id.data ≠ []) (hslash : '/' ∉ id.data) :
    isChild shard (shard ++ "/" ++ id) = true := by
  unfold isChild
  rw [below_path, restOf_path]
  simp [hne, hslash]

theorem path_ne_shard (shard id : String) : shard ++ "/" ++ id ≠ shard := by
  intro h
  have := congrArg (fun s => s.data.length) h
  simp [String.data_append] at this

theorem length_le_utf8Len (cs : List Char) : cs.length ≤ String.utf8Len cs := by
  induction cs with
  | nil => simp
  | cons c rest ih =>
    have := Char.utf8Size_pos c
    simp [String.utf8Len_cons]
    omega

theorem length_le_utf8ByteSize (s : String) : s.data.length ≤ s.utf8ByteSize := by
  cases s with
  | mk cs => simpa using length_le_utf8Len cs

theorem getDirectoryName_of_two (runeCap : Nat → Nat) (id : String) (h : 2 ≤ id.data.length) :
    getDirectoryName runeCap id = some (String.mk (id.data.take 2)) := by
  unfold getDirectoryName
  exact if_pos h

theorem runPreMiddleware_ok (stages : List PreMiddlewareFunc) (x y : Bytes) (n : Nat)
    (h : stages.foldlM (fun acc f => f acc) x = Except.ok y) :
    runPreMiddleware stages x n = (.ok y, n + stages.length) := by
  induction stages generalizing x n with
  | nil =>
    simp only [List.foldlM_nil, pure, Except.pure, Except.ok.injEq] at h
    simp [runPreMiddleware, h]
  | cons f rest ih =>
    rw [List.foldlM_cons] at h
    cases hf : f x with
    | error err => simp [hf, bind, Except.bind] at h
    | ok out =>
      simp only [hf, bind, Except.bind] at h
      simp only [runPreMiddleware, hf, List.length_cons]
      rw [ih out (n + 1) h]
      simp
      omega

theorem foldlM_total (stages : List (Bytes → Bytes)) (x : Bytes) :
    (stages.map (fun g => fun data => (Except.ok (g data) : Except Error Bytes))).foldlM
      (fun acc f => f acc) x = Except.ok (stages.foldl (fun acc g => g acc) x) := by
  induction stages generalizing x with
  | nil => rfl
  | cons g rest ih =>
    rw [List.map_cons, List.foldlM_cons, List.foldl_cons]
    exact ih (g x)

theorem lastErrAfterWait_none (post : List PostMiddlewareFunc) (k : Nat) (data : Bytes)
    (h : ∀ f ∈ post, f data = none) : lastErrAfterWait post k data = none := by
  unfold lastErrAfterWait
  cases hg : post[k % post.length]? with
  | none => rfl
  | some f =>
    have hmem : f ∈ post := by
      rw [List.getElem?_eq_some] at hg
      obtain ⟨hlt, heq⟩ := hg
      rw [← heq]
      exact List.getElem_mem _
    simpa using h f hmem

theorem nodeAt_of_isDir (d : FileSystem) (p : String) (h : d.isDir p = true) :
    d.nodeAt p = some .dir := by
  unfold FileSystem.isDir at h
  split at h
  · assumption
  · simp at h

theorem allocate_fresh (workingDir root : String) (runeCap : Nat → Nat) (id : String)
    (more : List String) (disk : FileSystem)
    (hwd : workingDir = root ++ "/") (hroot : disk.isDir root = true)
    (hlen : 2 ≤ id.data.length) (hslash : '/' ∉ id.data)
    (hfree : disk.nodeAt (workingDir ++ String.mk (id.data.take 2) ++ "/" ++ id) = none)
    (hshard : disk.fileAt (workingDir ++ String.mk (id.data.take 2)) = none) :
    ∃ disk2, allocate workingDir runeCap (id :: more) disk =
        .opened id (workingDir ++ String.mk (id.data.take 2) ++ "/" ++ id) disk2 ∧
      disk2.nodeAt (workingDir ++ String.mk (id.data.take 2) ++ "/" ++ id) = some (.file []) ∧
      disk2.dirSize = disk.dirSize := by
  have hne : id.data ≠ [] := by
    intro h
    rw [h] at hlen
    simp at hlen
  -- the state after `os.Mkdir`, whether it created the shard or found it
  have hmk : ∃ disk1,
      mkdirUnlessExists disk (workingDir ++ String.mk (id.data.take 2)) = .ok disk1 ∧
      disk1.nodeAt (workingDir ++ String.mk (id.data.take 2)) = some .dir ∧
      disk1.nodeAt (workingDir ++ String.mk (id.data.take 2) ++ "/" ++ id) = none ∧
      disk1.dirSize = disk.dirSize := by
    have hparent : disk.paths.any (fun dir => disk.isDir dir &&
        isChild dir (workingDir ++ String.mk (id.data.take 2))) = true := by
      rw [List.any_eq_true]
      refine ⟨root, mem_paths_of_nodeAt _ _ _ (nodeAt_of_isDir _ _ hroot), ?_⟩
      have hshardne : (String.mk (id.data.take 2)).data ≠ [] := by
        intro h
        have h2 : (id.data.take 2).length = 0 := by
          have h3 : (String.mk (id.data.take 2)).data = id.data.take 2 := rfl
          rw [← h3, h]
          rfl
        rw [List.length_take] at h2
        omega
      have hshardslash : '/' ∉ (String.mk (id.data.take 2)).data :=
        fun hm => hslash (List.mem_of_mem_take hm)
      rw [hwd]
      simp [hroot, isChild_path _ _ hshardne hshardslash]
    unfold mkdirUnlessExists osMkdir
    cases hn : disk.nodeAt (workingDir ++ String.mk (id.data.take 2)) with
    | none =>
      refine ⟨disk.put (workingDir ++ String.mk (id.data.take 2)) .dir, ?_, ?_, ?_, rfl⟩
      · simp only [hparent, if_true]
      · simp [nodeAt_put]
      · rw [nodeAt_put, if_neg (path_ne_shard _ _)]
        exact hfree
    | some node =>
      cases node with
      | file data => simp [FileSystem.fileAt, hn] at hshard
      | dir => exact ⟨disk, by simp, hn, hfree, rfl⟩
  obtain ⟨disk1, hmade, hdir, hfree1, hsize⟩ := hmk
  have hany : disk1.paths.any (fun dir => disk1.isDir dir &&
      isChild dir (workingDir ++ String.mk (id.data.take 2) ++ "/" ++ id)) = true := by
    rw [List.any_eq_true]
    refine ⟨workingDir ++ String.mk (id.data.take 2), mem_paths_of_nodeAt _ _ _ hdir, ?_⟩
    simp [FileSystem.isDir, hdir, isChild_path _ _ hne hslash]
  refine ⟨disk1.put (workingDir ++ String.mk (id.data.take 2) ++ "/" ++ id) (.file []), ?_, ?_, ?_⟩
  · rw [allocate, getDirectoryName_of_two runeCap id hlen]
    simp only []
    rw [hmade]
    simp only [osOpenFile, hfree1, hany, if_true]
  · simp [nodeAt_put]
  · simpa [FileSystem.put, FileSystem.erase] using hsize

theorem uuid_length (id : String) (h : isUUIDString id = true) : 2 ≤ id.data.length := by
  simp only [isUUIDString, Bool.and_eq_true, decide_eq_true_eq] at h
  omega

theorem uuid_no_separator (id : String) (h : isUUIDString id = true) : '/' ∉ id.data := by
  simp only [isUUIDString, Bool.and_eq_true, List.all_eq_true] at h
  intro hmem
  have := h.1.2 '/' hmem
  exact absurd this (by decide)

theorem checkHashSum_no_digest (h : Digests) (data : Bytes) :
    checkHashSum h data "" "" "" = none := by
  simp [checkHashSum, checkHashSumSha1, checkHashSumSha256]

theorem uploadFinish_ok (fs : FileOperationsServer) (env : Env) (w : World)
    (fileName filePath : String) (fileData old : Bytes)
    (hfile : w.disk.nodeAt filePath = some (.file old))
    (hpost : ∀ f ∈ fs.PostMiddlewareFunctions, f fileData = none)
    (hcreate : createRedisFileEntity fs fileName = none) :
    uploadFinish fs env w fileName filePath fileData =
      ⟨.returned (.upload fileName) none,
        { w with disk := w.disk.put filePath (.file (fileData ++ old.drop fileData.length)) }⟩ := by
  unfold uploadFinish fileWrite
  simp only [hfile, hcreate, lastErrAfterWait_none _ _ _ hpost]
  simp

theorem upload_stores (fs : FileOperationsServer) (env : Env) (w : World)
    (x y : Bytes) (id : String) (more : List String) (rUp : Request) (root : String)
    (hwd : fs.WorkingDir = root ++ "/") (hroot : w.disk.isDir root = true)
    (hchain : fs.PreMiddlewareFunctions.foldlM (fun acc f => f acc) x = Except.ok y)
    (hx : x ≠ []) (hform : rUp.formFile = .ok (.ok x))
    (hnodigest : rUp.md5 = "" ∧ rUp.sha1 = "" ∧ rUp.sha256 = "")
    (hallowed : (checkLimitError fs w.table rUp UploadOperationIndex x.length env.now).1.2 = none)
    (huuid : env.uuids = id :: more) (hgenerated : isUUIDString id = true)
    (hfree : w.disk.nodeAt (fs.WorkingDir ++ String.mk (id.data.take 2) ++ "/" ++ id) = none)
    (hshard : w.disk.fileAt (fs.WorkingDir ++ String.mk (id.data.take 2)) = none)
    (hpost : ∀ f ∈ fs.PostMiddlewareFunctions, f y = none)
    (hcreate : createRedisFileEntity fs id = none) :
    (uploadHandler fs env w rUp).result = .returned (.upload id) none ∧
    (uploadHandler fs env w rUp).world.disk.nodeAt
        (fs.WorkingDir ++ String.mk (id.data.take 2) ++ "/" ++ id)
      = some (.file y) := by
  have hlen0 : ¬ x.length = 0 := fun h => hx (List.length_eq_zero.mp h)
  obtain ⟨hm, hs1, hs256⟩ := hnodigest
  have hlen := uuid_length id hgenerated
  have hslash := uuid_no_separator id hgenerated
  obtain ⟨disk2, halloc, hnode, _⟩ :=
    allocate_fresh fs.WorkingDir root env.runeCap id more w.disk hwd hroot hlen hslash hfree
      hshard
  unfold uploadHandler
  simp only [hform, hlen0, hallowed, hm, hs1, hs256, checkHashSum_no_digest,
    runPreMiddleware_ok _ x y 0 hchain, huuid, halloc]
  simp only [ne_eq, not_true_eq_false, if_false]
  rw [uploadFinish_ok fs env _ id _ _ [] hnode hpost hcreate]
  simp [nodeAt_put]

theorem download_reads (fs : FileOperationsServer) (env : Env) (w : World) (r : Request)
    (id : String) (data : Bytes) (hname : r.filename = id) (hlen : 2 ≤ id.data.length)
    (hfile : w.disk.nodeAt (fs.WorkingDir ++ String.mk (id.data.take 2) ++ "/" ++ id)
      = some (.file data))
    (hallowed : (checkLimitError fs w.table r DownloadOperationIndex data.length env.now).1.2 = none)
    (hupdate : updateRedisFileEntity fs id = none) :
    (downloadHandler fs env w r).result = .returned (.bytes data) none := by
  have hbytes : ¬ id.utf8ByteSize < 2 := by
    have := length_le_utf8ByteSize id
    omega
  unfold downloadHandler
  simp only [hname, hbytes, if_false, getDirectoryName_of_two env.runeCap id hlen, osStat, hfile,
    hallowed, hupdate, osReadFile]
  simp

/-- C8, counterexample: the claim's conditions hold (non-empty payload `9`, no pre
stage, no digests, no limits, a generated identifier that names nothing in the
store) and `uploadHandler` returns no identifier: when the metadata create call
fails it returns 500 with that error, when the storage root does not exist it
returns 500 with the error of `os.Mkdir`, and when a post stage fails it returns
the status 500 as its value. -/
theorem round_trip_depends_on_surroundings :
    ([9] : Bytes) ≠ [] ∧
    failingCreateServer.PreMiddlewareFunctions.length = 0 ∧
    (checkLimitError failingCreateServer emptyWorld.table (uploadRequest [9] "" "" "")
        UploadOperationIndex 1 0).1.2 = none ∧
    emptyWorld.disk.nodeAt ("./bin/ab/" ++ sampleId) = none ∧
    noRootWorld.disk.nodeAt ("./bin/ab/" ++ sampleId) = none ∧
    (uploadHandler failingCreateServer (sampleEnv 0) emptyWorld
        (uploadRequest [9] "" "" "")).result
      = .returned (.int 500) (some "redis: connection refused") ∧
    WrapHandler (uploadHandler failingCreateServer (sampleEnv 0) emptyWorld
        (uploadRequest [9] "" "" "")).result
      = .response 500 (.text "redis: connection refused") ∧
    (uploadHandler (limitsOnly 0 0) (sampleEnv 0) noRootWorld (uploadRequest [9] "" "" "")).result
      = .returned (.int 500) (some "mkdir ./bin/ab: no such file or directory") ∧
    (uploadHandler failingPostServer (sampleEnv 0) emptyWorld (uploadRequest [9] "" "" "")).result
      = .returned (.int 500) none := by
  decide

/-- C8, amended: upload then download through the pre chain. For every non-empty
payload `x` whose pre chain (the registered stages applied in registration order,
each on the previous output) succeeds with `y`, no digests supplied, admission
allowed, a generated identifier `id` (at least two characters, no separator, as
every UUID string) that names nothing in the store, and in addition: the storage
root `WorkingDir` is an existing directory, the shard path is not a regular
file, every post stage succeeds on `y`, and the metadata create and update calls
succeed. Then `uploadHandler` returns `id`, a following `downloadHandler` for
`id` returns exactly `y` (answered 200 with these raw bytes), and when the stages
are total functions `f1..fn` then `y` is `fn(...f1(x)...)`; with the test's
upper-casing stage `capitalize Proverka` comes back as `CAPITALIZE PROVERKA`. -/
theorem upload_download_round_trip (fs : FileOperationsServer) (env env2 : Env) (w : World)
    (x y : Bytes) (id : String) (more : List String) (rUp rDown : Request) (root : String)
    (hwd : fs.WorkingDir = root ++ "/") (hroot : w.disk.isDir root = true)
    (hchain : fs.PreMiddlewareFunctions.foldlM (fun acc f => f acc) x = Except.ok y)
    (hx : x ≠ []) (hform : rUp.formFile = .ok (.ok x))
    (hnodigest : rUp.md5 = "" ∧ rUp.sha1 = "" ∧ rUp.sha256 = "")
    (hallowUp : (checkLimitError fs w.table rUp UploadOperationIndex x.length env.now).1.2 = none)
    (huuid : env.uuids = id :: more) (hgenerated : isUUIDString id = true)
    (hfree : w.disk.nodeAt (fs.WorkingDir ++ String.mk (id.data.take 2) ++ "/" ++ id) = none)
    (hshard : w.disk.fileAt (fs.WorkingDir ++ String.mk (id.data.take 2)) = none)
    (hpost : ∀ f ∈ fs.PostMiddlewareFunctions, f y = none)
    (hcreate : createRedisFileEntity fs id = none)
    (hname : rDown.filename = id)
    (hallowDown : (checkLimitError fs (uploadHandler fs env w rUp).world.table rDown
      DownloadOperationIndex y.length env2.now).1.2 = none)
    (hupdate : updateRedisFileEntity fs id = none) :
    (uploadHandler fs env w rUp).result = .returned (.upload id) none ∧
    (downloadHandler fs env2 (uploadHandler fs env w rUp).world rDown).result
      = .returned (.bytes y) none ∧
    WrapHandler (downloadHandler fs env2 (uploadHandler fs env w rUp).world rDown).result
      = .response 200 (.raw y) ∧
    (∀ stages : List (Bytes → Bytes),
      fs.PreMiddlewareFunctions = stages.map (fun g => fun data => Except.ok (g data)) →
      y = stages.foldl (fun acc g => g acc) x) ∧
    (downloadHandler testServer (sampleEnv 1)
        (uploadHandler testServer (sampleEnv 0) emptyWorld
          (uploadRequest (asciiBytes "capitalize Proverka") "" "" "")).world
        (requestFor sampleId)).result
      = .returned (.bytes (asciiBytes "CAPITALIZE PROVERKA")) none := by
  obtain ⟨hres, hnode⟩ := upload_stores fs env w x y id more rUp root hwd hroot hchain hx hform
    hnodigest hallowUp huuid hgenerated hfree hshard hpost hcreate
  have hdown := download_reads fs env2 (uploadHandler fs env w rUp).world rDown id _ hname
    (uuid_length id hgenerated) hnode hallowDown hupdate
  refine ⟨hres, hdown, ?_, ?_, by decide⟩
  · rw [hdown]
    rfl
  · intro stages hstages
    rw [hstages, foldlM_total] at hchain
    exact (Except.ok.inj hchain).symm

theorem mem_paths_erase (d : FileSystem) (p q : String) :
    q ∈ (d.erase p).paths ↔ q ∈ d.paths ∧ q ≠ p := by
  simp only [FileSystem.paths, FileSystem.erase, List.mem_map, List.mem_filter,
    decide_eq_true_eq]
  constructor
  · rintro ⟨e, ⟨he, hne⟩, rfl⟩
    exact ⟨⟨e, he, rfl⟩, hne⟩
  · rintro ⟨⟨e, he, rfl⟩, hne⟩
    exact ⟨e, ⟨he, hne⟩, rfl⟩

theorem nodeAt_of_fileAt (d : FileSystem) (p : String) (data : Bytes)
    (h : d.fileAt p = some data) : d.nodeAt p = some (.file data) := by
  unfold FileSystem.fileAt at h
  split at h
  · rename_i data2 hn
    simp at h
    rw [hn, h]
  · simp at h

theorem nodeAt_removeAll (d d2 : FileSystem) (shard q : String)
    (h : osRemoveAll d shard = .ok d2) :
    d2.nodeAt q = if (decide (q ≠ shard) && !below shard q) = true then d.nodeAt q else none := by
  unfold osRemoveAll at h
  simp only [Except.ok.injEq] at h
  subst h
  unfold FileSystem.nodeAt
  have hk := find_filter_key d.entries (fun x => decide (x ≠ shard) && !below shard x) q
  simp only [] at hk ⊢
  rw [hk]
  split <;> simp

/-- What a successful `deleteHandler` call went through. -/
theorem delete_success (fs : FileOperationsServer) (env : Env) (w : World) (r : Request)
    (id dirName : String) (data : Bytes) (hname : r.filename = id)
    (hdir : getDirectoryName env.runeCap id = some dirName)
    (hstored : w.disk.fileAt (fs.WorkingDir ++ dirName ++ "/" ++ id) = some data)
    (hok : (deleteHandler fs env w r).result = .returned .nil none) :
    w.disk.nodeAt (fs.WorkingDir ++ dirName) = some .dir ∧
    ((((w.disk.erase (fs.WorkingDir ++ dirName ++ "/" ++ id)).paths.filter
          (below (fs.WorkingDir ++ dirName))) = [] ∧
        osRemoveAll (w.disk.erase (fs.WorkingDir ++ dirName ++ "/" ++ id))
          (fs.WorkingDir ++ dirName) = .ok (deleteHandler fs env w r).world.disk) ∨
      (((w.disk.erase (fs.WorkingDir ++ dirName ++ "/" ++ id)).paths.filter
          (below (fs.WorkingDir ++ dirName))) ≠ [] ∧
        (deleteHandler fs env w r).world.disk =
          w.disk.erase (fs.WorkingDir ++ dirName ++ "/" ++ id))) := by
  have hnode := nodeAt_of_fileAt _ _ _ hstored
  have hshardne : fs.WorkingDir ++ dirName ≠ fs.WorkingDir ++ dirName ++ "/" ++ id :=
    fun h => path_ne_shard _ _ h.symm
  have herase : (w.disk.erase (fs.WorkingDir ++ dirName ++ "/" ++ id)).nodeAt
      (fs.WorkingDir ++ dirName) = w.disk.nodeAt (fs.WorkingDir ++ dirName) := by
    rw [nodeAt_erase, if_neg hshardne]
  revert hok
  unfold deleteHandler
  simp only [hname, hdir]
  split
  · simp
  · simp only [osStat, hnode]
    split
    · simp
    · simp only [osRemove, hnode, deleteCleanup, osReadDir, herase]
      cases hsh : w.disk.nodeAt (fs.WorkingDir ++ dirName) with
      | none => simp
      | some node =>
        cases node with
        | file d0 => simp
        | dir =>
          simp only []
          by_cases hempty : (w.disk.erase (fs.WorkingDir ++ dirName ++ "/" ++ id)).paths.filter
              (below (fs.WorkingDir ++ dirName)) = []
          · simp only [hempty, List.map_nil, List.dedup_nil, List.length_nil, if_true]
            cases hdel : setAsDeletedRedisFileEntity fs id with
            | some err => simp [osRemoveAll]
            | none => simp [osRemoveAll]
          · have hlen : ¬ (((w.disk.erase (fs.WorkingDir ++ dirName ++ "/" ++ id)).paths.filter
                (below (fs.WorkingDir ++ dirName))).map
                  (entryName (fs.WorkingDir ++ dirName))).dedup.length = 0 := by
              rw [List.length_eq_zero, List.dedup_eq_nil, List.map_eq_nil_iff]
              exact hempty
            simp only [hlen, if_false]
            cases hdel : setAsDeletedRedisFileEntity fs id with
            | some err => simp
            | none => simp [hempty]

theorem fileAt_congr (d d2 : FileSystem) (p : String) (h : d2.nodeAt p = d.nodeAt p) :
    d2.fileAt p = d.fileAt p := by
  unfold FileSystem.fileAt
  rw [h]

/-- C10: when `deleteHandler` succeeds on a stored identifier, the object is
absent afterwards, every other file is unchanged (and every node other than the
object and its shard directory), the shard directory still exists if and only if
it held an entry other than the object, and deleting the last entry of a shard
leaves nothing at the shard path. -/
theorem delete_and_shard_cleanup (fs : FileOperationsServer) (env : Env) (w : World)
    (r : Request) (id dirName : String) (data : Bytes) (hname : r.filename = id)
    (hdir : getDirectoryName env.runeCap id = some dirName)
    (hstored : w.disk.fileAt (fs.WorkingDir ++ dirName ++ "/" ++ id) = some data)
    (hok : (deleteHandler fs env w r).result = .returned .nil none) :
    (deleteHandler fs env w r).world.disk.nodeAt (fs.WorkingDir ++ dirName ++ "/" ++ id) = none ∧
    (∀ p, p ≠ fs.WorkingDir ++ dirName ++ "/" ++ id →
      (deleteHandler fs env w r).world.disk.fileAt p = w.disk.fileAt p) ∧
    (∀ p, p ≠ fs.WorkingDir ++ dirName ++ "/" ++ id → p ≠ fs.WorkingDir ++ dirName →
      (deleteHandler fs env w r).world.disk.nodeAt p = w.disk.nodeAt p) ∧
    ((deleteHandler fs env w r).world.disk.isDir (fs.WorkingDir ++ dirName) = true ↔
      ∃ p ∈ w.disk.paths, p ≠ fs.WorkingDir ++ dirName ++ "/" ++ id ∧
        below (fs.WorkingDir ++ dirName) p = true) ∧
    ((∀ p ∈ w.disk.paths, below (fs.WorkingDir ++ dirName) p = true →
        p = fs.WorkingDir ++ dirName ++ "/" ++ id) →
      (deleteHandler fs env w r).world.disk.nodeAt (fs.WorkingDir ++ dirName) = none) := by
  obtain ⟨hshard, hcase⟩ := delete_success fs env w r id dirName data hname hdir hstored hok
  have hshardne : fs.WorkingDir ++ dirName ≠ fs.WorkingDir ++ dirName ++ "/" ++ id :=
    fun h => path_ne_shard _ _ h.symm
  -- entries of the shard other than the object, before the call
  have hothers : ((w.disk.erase (fs.WorkingDir ++ dirName ++ "/" ++ id)).paths.filter
      (below (fs.WorkingDir ++ dirName)) = []) ↔
      ¬ ∃ p ∈ w.disk.paths, p ≠ fs.WorkingDir ++ dirName ++ "/" ++ id ∧
        below (fs.WorkingDir ++ dirName) p = true := by
    rw [List.filter_eq_nil_iff]
    constructor
    · rintro h ⟨p, hp, hne, hb⟩
      exact h p ((mem_paths_erase _ _ _).mpr ⟨hp, hne⟩) hb
    · intro h p hp hb
      exact h ⟨p, ((mem_paths_erase _ _ _).mp hp).1, ((mem_paths_erase _ _ _).mp hp).2, hb⟩
  rcases hcase with ⟨hempty, hrm⟩ | ⟨hfull, hdisk⟩
  · -- the shard held nothing else: `os.RemoveAll` ran
    have hnone : ∀ q, below (fs.WorkingDir ++ dirName) q = true →
        (w.disk.erase (fs.WorkingDir ++ dirName ++ "/" ++ id)).nodeAt q = none := by
      intro q hq
      cases hn : (w.disk.erase (fs.WorkingDir ++ dirName ++ "/" ++ id)).nodeAt q with
      | none => rfl
      | some n =>
        have hmem := mem_paths_of_nodeAt _ _ _ hn
        have := (List.filter_eq_nil_iff.mp hempty) q hmem
        exact absurd hq this
    have hafter : ∀ q, (deleteHandler fs env w r).world.disk.nodeAt q =
        if q = fs.WorkingDir ++ dirName then none
        else (w.disk.erase (fs.WorkingDir ++ dirName ++ "/" ++ id)).nodeAt q := by
      intro q
      rw [nodeAt_removeAll _ _ _ q hrm]
      by_cases hq : q = fs.WorkingDir ++ dirName
      · simp [hq]
      · by_cases hb : below (fs.WorkingDir ++ dirName) q = true
        · simp [hq, hb, hnone q hb]
        · simp [hq, hb]
    refine ⟨?_, ?_, ?_, ?_, ?_⟩
    · rw [hafter, if_neg (Ne.symm hshardne), nodeAt_erase, if_pos rfl]
    · intro p hp
      by_cases hps : p = fs.WorkingDir ++ dirName
      · subst hps
        unfold FileSystem.fileAt
        rw [hafter, if_pos rfl, hshard]
      · apply fileAt_congr
        rw [hafter, if_neg hps, nodeAt_erase, if_neg hp]
    · intro p hp hps
      rw [hafter, if_neg hps, nodeAt_erase, if_neg hp]
    · constructor
      · intro h
        unfold FileSystem.isDir at h
        rw [hafter, if_pos rfl] at h
        simp at h
      · intro h
        exact absurd h (hothers.mp hempty)
    · intro _
      rw [hafter, if_pos rfl]
  · -- the shard holds other entries: it is left as it is
    refine ⟨?_, ?_, ?_, ?_, ?_⟩
    · rw [hdisk, nodeAt_erase, if_pos rfl]
    · intro p hp
      apply fileAt_congr
      rw [hdisk, nodeAt_erase, if_neg hp]
    · intro p hp _
      rw [hdisk, nodeAt_erase, if_neg hp]
    · constructor
      · intro _
        by_contra hno
        exact hfull (hothers.mpr hno)
      · intro _
        unfold FileSystem.isDir
        rw [hdisk, nodeAt_erase, if_neg hshardne, hshard]
    · intro hall
      exfalso
      apply hfull
      rw [hothers]
      rintro ⟨p, hp, hne, hb⟩
      exact hne (hall p hp hb)

/-- C8, amended claim at the configuration of `TestFileLifecycle`: the upper-casing pre stage,
no limits, an empty store, payload `capitalize Proverka`. -/
theorem upload_download_round_trip_witness :
    testServer.PreMiddlewareFunctions.foldlM (fun acc f => f acc)
        (asciiBytes "capitalize Proverka") = Except.ok (asciiBytes "CAPITALIZE PROVERKA") ∧
    asciiBytes "capitalize Proverka" ≠ [] ∧
    testServer.WorkingDir = "./bin" ++ "/" ∧ emptyWorld.disk.isDir "./bin" = true ∧
    isUUIDString sampleId = true ∧
    emptyWorld.disk.nodeAt
        (testServer.WorkingDir ++ String.mk (sampleId.data.take 2) ++ "/" ++ sampleId) = none ∧
    (uploadHandler testServer (sampleEnv 0) emptyWorld
        (uploadRequest (asciiBytes "capitalize Proverka") "" "" "")).result
      = .returned (.upload sampleId) none ∧
    (downloadHandler testServer (sampleEnv 1)
        (uploadHandler testServer (sampleEnv 0) emptyWorld
          (uploadRequest (asciiBytes "capitalize Proverka") "" "" "")).world
        (requestFor sampleId)).result
      = .returned (.bytes (asciiBytes "CAPITALIZE PROVERKA")) none :=
  have hchain : testServer.PreMiddlewareFunctions.foldlM (fun acc f => f acc)
      (asciiBytes "capitalize Proverka") = Except.ok (asciiBytes "CAPITALIZE PROVERKA") := by
    rfl
  have h := upload_download_round_trip testServer (sampleEnv 0) (sampleEnv 1) emptyWorld
    (asciiBytes "capitalize Proverka") (asciiBytes "CAPITALIZE PROVERKA") sampleId [otherId]
    (uploadRequest (asciiBytes "capitalize Proverka") "" "" "") (requestFor sampleId)
    "./bin" rfl (by decide) hchain (by decide) rfl ⟨rfl, rfl, rfl⟩ (by decide) rfl (by decide)
    (by decide) (by decide) (by decide) (by decide) rfl (by decide) (by decide)
  ⟨hchain, by decide, rfl, by decide, by decide, by decide, h.1, h.2.1⟩

/-- C10 at a concrete store: the only object of shard `ab` is deleted. -/
theorem delete_and_shard_cleanup_witness :
    getDirectoryName (sampleEnv 0).runeCap sampleId = some "ab" ∧
    oneObjectWorld.disk.fileAt ((limitsOnly 0 0).WorkingDir ++ "ab" ++ "/" ++ sampleId)
      = some [1, 2, 3] ∧
    (deleteHandler (limitsOnly 0 0) (sampleEnv 0) oneObjectWorld (requestFor sampleId)).result
      = .returned .nil none ∧
    (deleteHandler (limitsOnly 0 0) (sampleEnv 0) oneObjectWorld
        (requestFor sampleId)).world.disk.nodeAt
        ((limitsOnly 0 0).WorkingDir ++ "ab" ++ "/" ++ sampleId) = none ∧
    (deleteHandler (limitsOnly 0 0) (sampleEnv 0) oneObjectWorld
        (requestFor sampleId)).world.disk.nodeAt ((limitsOnly 0 0).WorkingDir ++ "ab") = none :=
  have h := delete_and_shard_cleanup (limitsOnly 0 0) (sampleEnv 0) oneObjectWorld
    (requestFor sampleId) sampleId "ab" [1, 2, 3] rfl (by decide) (by decide) (by decide)
  ⟨by decide, by decide, by decide, h.1, h.2.2.2.2 (by decide)⟩

end Storageapi

namespace Storageapi

/-! ## Window expiry, trimming and the sweeper -/

/-- C11: a ticket with timestamp `T` has no influence on a decision evaluated at
`now ≥ T + 1.001 s`: for a window holding the ticket and the same window without
it, the counting loop yields the same request count and the same byte sum, and
`IsRequestAllowed` returns the same pair for every payload size. -/
theorem expired_ticket_has_no_influence (fs : FileOperationsServer)
    (tbl tbl2 : OperationsTable) (key : ClientOperationKey) (before after : List RequestTicket)
    (ticket : RequestTicket) (dataLength now : Int)
    (hwindow : tbl key = some (before ++ ticket :: after))
    (hremoved : tbl2 key = some (before ++ after))
    (hexpired : ticket.Timestamp + 1001000000 ≤ now) :
    (scanTickets (now - Second) (before ++ ticket :: after)).rps
      = (scanTickets (now - Second) (before ++ after)).rps ∧
    (scanTickets (now - Second) (before ++ ticket :: after)).bps
      = (scanTickets (now - Second) (before ++ after)).bps ∧
    (IsRequestAllowed fs tbl key dataLength now).1
      = (IsRequestAllowed fs tbl2 key dataLength now).1 := by
  have hstale : ¬ now - Second < ticket.Timestamp := by
    unfold Second
    omega
  have hfilter : (before ++ ticket :: after).filter
        (fun t => decide (now - Second < t.Timestamp))
      = (before ++ after).filter (fun t => decide (now - Second < t.Timestamp)) := by
    simp [List.filter_append, List.filter_cons, hstale]
  have h1 := scanTickets_filter (now - Second) (before ++ ticket :: after)
  have h2 := scanTickets_filter (now - Second) (before ++ after)
  have hrps : (scanTickets (now - Second) (before ++ ticket :: after)).rps
      = (scanTickets (now - Second) (before ++ after)).rps := by
    rw [h1.1, h2.1, hfilter]
  have hbps : (scanTickets (now - Second) (before ++ ticket :: after)).bps
      = (scanTickets (now - Second) (before ++ after)).bps := by
    rw [h1.2, h2.2, hfilter]
  refine ⟨hrps, hbps, ?_⟩
  unfold IsRequestAllowed
  simp only [hwindow, hremoved, hrps, hbps]
  split
  · rfl
  · split
    · rfl
    · split <;> rfl

/-- C12, the code at the failing inputs: limit 10 requests per second, a window
with the chronologically ordered tickets of two calls at 0 and 1 ns. An allowed
call at 2 ns leaves the tickets of the second call and of the new one, the first
ticket, still inside the window, is dropped. An allowed call at 5 s, when both
tickets are stale, leaves both of them in front of the new ticket. -/
theorem allowed_call_keeps_wrong_tickets :
    runCalls (limitsOnly 10 0) emptyTable [⟨sampleKey, 10, 0⟩, ⟨sampleKey, 20, 1⟩] sampleKey
      = some [⟨10, 0⟩, ⟨20, 1⟩] ∧
    (IsRequestAllowed (limitsOnly 10 0)
        (runCalls (limitsOnly 10 0) emptyTable [⟨sampleKey, 10, 0⟩, ⟨sampleKey, 20, 1⟩])
        sampleKey 30 2).1 = (false, false) ∧
    (IsRequestAllowed (limitsOnly 10 0)
        (runCalls (limitsOnly 10 0) emptyTable [⟨sampleKey, 10, 0⟩, ⟨sampleKey, 20, 1⟩])
        sampleKey 30 2).2 sampleKey = some [⟨20, 1⟩, ⟨30, 2⟩] ∧
    (IsRequestAllowed (limitsOnly 10 0)
        (runCalls (limitsOnly 10 0) emptyTable [⟨sampleKey, 10, 0⟩, ⟨sampleKey, 20, 1⟩])
        sampleKey 30 5000000000).1 = (false, false) ∧
    (IsRequestAllowed (limitsOnly 10 0)
        (runCalls (limitsOnly 10 0) emptyTable [⟨sampleKey, 10, 0⟩, ⟨sampleKey, 20, 1⟩])
        sampleKey 30 5000000000).2 sampleKey
      = some [⟨10, 0⟩, ⟨20, 1⟩, ⟨30, 5000000000⟩] := by
  decide

theorem firstActualFrom_spec (start : Int) (tickets : List RequestTicket) (i : Nat)
    (hsorted : tickets.Pairwise (fun a b => a.Timestamp ≤ b.Timestamp)) :
    ∃ k, k ≤ tickets.length ∧
      firstActualFrom start i tickets (i + tickets.length) = i + k ∧
      tickets.drop k = tickets.filter (fun t => decide (start < t.Timestamp)) ∧
      (k = tickets.length ↔ tickets.filter (fun t => decide (start < t.Timestamp)) = []) ∧
      ∀ t ∈ tickets.take k, ¬ start < t.Timestamp := by
  induction tickets generalizing i with
  | nil => exact ⟨0, by simp [firstActualFrom]⟩
  | cons t rest ih =>
    rw [List.pairwise_cons] at hsorted
    by_cases hin : start < t.Timestamp
    · refine ⟨0, by simp, by simp [firstActualFrom, hin], ?_, by simp [hin], by simp⟩
      have hall : ∀ x ∈ rest, decide (start < x.Timestamp) = true := by
        intro x hx
        have := hsorted.1 x hx
        simp
        omega
      simp [List.filter_cons, hin, List.filter_eq_self.mpr hall]
    · obtain ⟨k, hk, hfirst, hdrop, hlen, htake⟩ := ih (i + 1) hsorted.2
      refine ⟨k + 1, by simp [hk], ?_, ?_, ?_, ?_⟩
      · have harith : i + (t :: rest).length = i + 1 + rest.length := by
          simp
          omega
        rw [firstActualFrom, if_neg hin, harith, hfirst]
        omega
      · simp [List.filter_cons, hin, hdrop]
      · simp [List.filter_cons, hin]
        simpa using hlen
      · intro x hx
        simp only [List.take_succ_cons, List.mem_cons] at hx
        rcases hx with rfl | hx
        · exact hin
        · exact htake x hx

theorem sweepKey_at_key (tbl : OperationsTable) (key : ClientOperationKey) (now : Int)
    (tickets : List RequestTicket) (hwindow : tbl key = some tickets)
    (hsorted : tickets.Pairwise (fun a b => a.Timestamp ≤ b.Timestamp)) :
    sweepKey tbl key now key =
      if tickets.filter (fun t => decide (now - Second < t.Timestamp)) = [] then none
      else some (tickets.filter (fun t => decide (now - Second < t.Timestamp))) := by
  obtain ⟨k, _, hfirst, hdrop, hlen, _⟩ := firstActualFrom_spec (now - Second) tickets 0 hsorted
  rw [Nat.zero_add, Nat.zero_add] at hfirst
  unfold sweepKey
  simp only [hwindow, hfirst]
  by_cases hk : k = tickets.length
  · rw [if_pos hk, if_pos (hlen.mp hk)]
    simp [OperationsTable.delete]
  · rw [if_neg hk, if_neg (fun h => hk (hlen.mpr h)), hdrop]
    simp [OperationsTable.store]

theorem sweepKey_other (tbl : OperationsTable) (key k : ClientOperationKey) (now : Int)
    (hk : k ≠ key) : sweepKey tbl key now k = tbl k := by
  unfold sweepKey
  cases tbl key with
  | none => rfl
  | some tickets =>
    simp only []
    split
    · simp [OperationsTable.delete, hk]
    · simp [OperationsTable.store, hk]

/-- C13: one sweep step on a window with chronologically ordered tickets removes
the window exactly when no ticket lies inside the last second; otherwise the
window becomes the tickets inside the last second in their order. The tickets it
removes are not inside the last second, so the counting loop of
`IsRequestAllowed` at the same `now` yields the same count and byte sum on what
is kept as on the window before; other keys are untouched. -/
theorem sweep_step_trims_window (tbl : OperationsTable) (key : ClientOperationKey) (now : Int)
    (tickets : List RequestTicket) (hwindow : tbl key = some tickets)
    (hsorted : tickets.Pairwise (fun a b => a.Timestamp ≤ b.Timestamp)) :
    (sweepKey tbl key now key = none ↔ ∀ t ∈ tickets, ¬ now - Second < t.Timestamp) ∧
    ((∃ t ∈ tickets, now - Second < t.Timestamp) →
      sweepKey tbl key now key
        = some (tickets.filter (fun t => decide (now - Second < t.Timestamp)))) ∧
    (∀ t ∈ tickets, t ∉ (sweepKey tbl key now key).getD [] → ¬ now - Second < t.Timestamp) ∧
    (scanTickets (now - Second) ((sweepKey tbl key now key).getD [])).rps
      = (scanTickets (now - Second) tickets).rps ∧
    (scanTickets (now - Second) ((sweepKey tbl key now key).getD [])).bps
      = (scanTickets (now - Second) tickets).bps ∧
    (∀ k, k ≠ key → sweepKey tbl key now k = tbl k) := by
  have hat := sweepKey_at_key tbl key now tickets hwindow hsorted
  have hkept : (sweepKey tbl key now key).getD []
      = tickets.filter (fun t => decide (now - Second < t.Timestamp)) := by
    rw [hat]
    split
    · rename_i h
      simp [h]
    · simp
  refine ⟨?_, ?_, ?_, ?_, ?_, fun k hk => sweepKey_other tbl key k now hk⟩
  · rw [hat]
    constructor
    · intro h t ht hin
      split at h
      · rename_i hnil
        have := List.filter_eq_nil_iff.mp hnil t ht
        simp at this
        omega
      · simp at h
    · intro h
      rw [if_pos]
      rw [List.filter_eq_nil_iff]
      intro t ht
      simpa using h t ht
  · rintro ⟨t, ht, hin⟩
    rw [hat, if_neg]
    intro hnil
    have := List.filter_eq_nil_iff.mp hnil t ht
    simp at this
    omega
  · intro t ht hnot hin
    rw [hkept] at hnot
    exact hnot (List.mem_filter.mpr ⟨ht, by simpa using hin⟩)
  · rw [hkept]
    exact (scanTickets_filter (now - Second) tickets).1.symm
  · rw [hkept]
    exact (scanTickets_filter (now - Second) tickets).2.symm

/-! ## Identifiers, paths and handler results -/

/-- C14, the code at the failing input: the identifier `é` is one character of two
bytes, so it passes the check `len(fileName) < 2`. For every capacity the
runtime may give the rune slice, `getDirectoryName` either panics (capacity
below 2) or returns `é` followed by a zero character, which is no prefix of the
identifier; on a runtime that gave the slice a capacity equal to its length
`downloadHandler` would panic, with the capacity the gc runtime gives (32) it
builds the path with the zero character in it and answers 500. -/
theorem one_multibyte_char_directory_name (runeCap : Nat → Nat) :
    ¬ "é".utf8ByteSize < 2 ∧
    (getDirectoryName runeCap "é" = none ∨ getDirectoryName runeCap "é" = some "é\x00") ∧
    ¬ ("é\x00".data <+: "é".data) ∧
    getDirectoryName (fun n => n) "é" = none ∧
    (downloadHandler (limitsOnly 0 0) { sampleEnv 0 with runeCap := fun n => n } emptyWorld
        (requestFor "é")).result = .panicked ∧
    getDirectoryName (fun _ => 32) "é" = some "é\x00" ∧
    getDirectoryName (sampleEnv 0).runeCap "é" = some "é\x00" ∧
    objectPath (limitsOnly 0 0) (sampleEnv 0).runeCap "é" = some "./bin/é\x00/é" ∧
    (∃ body, WrapHandler (downloadHandler (limitsOnly 0 0) (sampleEnv 0) emptyWorld
        (requestFor "é")).result = .response 500 body) := by
  refine ⟨by decide, ?_, by decide, by decide, by decide, by decide, by decide, by decide,
    ⟨.text "stat ./bin/é\x00/é: no such file or directory", by decide⟩⟩
  unfold getDirectoryName
  by_cases h : 2 ≤ runeCap 1
  · right
    simp [h]
  · left
    simp [h]

/-- C15, the code at the failing input: a metadata client whose mark-removed call
fails, delete of a stored object. `deleteHandler` returns `(nil, err)`, and the
type assertion `resp.(int)` in `WrapHandler` panics. -/
theorem failing_mark_removed_breaks_type_assertion :
    (deleteHandler failingMarkRemovedServer (sampleEnv 0) oneObjectWorld
        (requestFor sampleId)).result
      = .returned .nil (some "redis: connection refused") ∧
    WrapHandler (deleteHandler failingMarkRemovedServer (sampleEnv 0) oneObjectWorld
        (requestFor sampleId)).result = .panicked := by
  decide

/-- C16, counterexample: the identifier `../../etc/passwd` passes the length check,
its shard is `..`, the name holds separators and `..` components, the path built
is `./bin/../../../etc/passwd`; `downloadHandler` returns the content found at
that path and `deleteHandler` removes what is there. -/
theorem traversal_identifier_leaves_the_root :
    ¬ "../../etc/passwd".utf8ByteSize < 2 ∧
    getDirectoryName (sampleEnv 0).runeCap "../../etc/passwd" = some ".." ∧
    hasParentComponent ".." = true ∧
    hasSeparator "../../etc/passwd" = true ∧
    hasParentComponent "../../etc/passwd" = true ∧
    objectPath (limitsOnly 0 0) (sampleEnv 0).runeCap "../../etc/passwd"
      = some "./bin/../../../etc/passwd" ∧
    (downloadHandler (limitsOnly 0 0) (sampleEnv 0) outsideWorld
        (requestFor "../../etc/passwd")).result = .returned (.bytes [114, 111, 111, 116]) none ∧
    (deleteHandler (limitsOnly 0 0) (sampleEnv 0) outsideWorld
        (requestFor "../../etc/passwd")).world.disk.nodeAt "./bin/../../../etc/passwd" = none := by
  decide

theorem splitPath_no_separator (cs : List Char) (h : '/' ∉ cs) : splitPath cs = [cs] := by
  induction cs with
  | nil => rfl
  | cons c rest ih =>
    have hc : c ≠ '/' := fun e => h (by simp [e])
    have hrest : '/' ∉ rest := fun hm => h (List.mem_cons_of_mem _ hm)
    simp [splitPath, hc, ih hrest]

theorem hasParentComponent_no_separator (s : String) (h : '/' ∉ s.data) :
    hasParentComponent s = decide (s.data = ['.', '.']) := by
  unfold hasParentComponent
  rw [splitPath_no_separator _ h]
  by_cases hs : s.data = ['.', '.']
  · simp [hs]
  · have hs2 : ¬ ['.', '.'] = s.data := fun e => hs e.symm
    simp [hs, hs2]

theorem hasSeparator_false (s : String) (h : '/' ∉ s.data) : hasSeparator s = false := by
  simp [hasSeparator, h]

/-- The shard of an identifier without separator that does not begin with `..`. -/
theorem shard_confined (runeCap : Nat → Nat) (id shard : String) (hsep : '/' ∉ id.data)
    (hdots : id.data.take 2 ≠ ['.', '.'])
    (hdir : getDirectoryName runeCap id = some shard) :
    '/' ∉ shard.data ∧ shard.data ≠ ['.', '.'] := by
  unfold getDirectoryName at hdir
  simp only [] at hdir
  split at hdir
  · simp only [Option.some.injEq] at hdir
    subst hdir
    exact ⟨fun hm => hsep (List.mem_of_mem_take hm), hdots⟩
  · split at hdir
    · simp only [Option.some.injEq] at hdir
      subst hdir
      rename_i hshort _
      constructor
      · intro hm
        rcases List.mem_append.mp hm with h1 | h1
        · exact hsep h1
        · have := (List.mem_replicate.mp h1).2
          exact absurd this (by decide)
      · intro heq
        have hlen : id.data.length < 2 := by omega
        match hd : id.data, hlen with
        | [], _ =>
          rw [hd] at heq
          simp at heq
        | [c], _ =>
          rw [hd] at heq
          simp at heq
    · simp at hdir

theorem download_reads_only_object (fs : FileOperationsServer) (env : Env) (w : World)
    (r : Request) (shard : String) (d2 : FileSystem)
    (hdir : getDirectoryName env.runeCap r.filename = some shard)
    (hnode : d2.nodeAt (fs.WorkingDir ++ shard ++ "/" ++ r.filename)
      = w.disk.nodeAt (fs.WorkingDir ++ shard ++ "/" ++ r.filename))
    (hsize : d2.dirSize = w.disk.dirSize) :
    (downloadHandler fs env { w with disk := d2 } r).result = (downloadHandler fs env w r).result := by
  unfold downloadHandler
  simp only [hdir, osStat, osReadFile, hnode, hsize]
  cases w.disk.nodeAt (fs.WorkingDir ++ shard ++ "/" ++ r.filename) with
  | none =>
    simp only []
    split <;> rfl
  | some node =>
    cases node with
    | file data =>
      simp only []
      split
      · rfl
      · split
        · rfl
        · split <;> rfl
    | dir =>
      simp only []
      split
      · rfl
      · split
        · rfl
        · split <;> rfl

theorem deleteCleanup_frame (fs : FileOperationsServer) (w : World) (fileName fileDir q : String)
    (hq : q ≠ fileDir) (hbelow : below fileDir q = false) :
    (deleteCleanup fs w fileName fileDir).world.disk.nodeAt q = w.disk.nodeAt q := by
  unfold deleteCleanup
  cases hread : osReadDir w.disk fileDir with
  | error err =>
    simp only []
    split <;> rfl
  | ok dir =>
    simp only []
    by_cases hlen : dir.length = 0
    · simp only [hlen, if_true]
      cases hrm : osRemoveAll w.disk fileDir with
      | error err => rfl
      | ok disk =>
        have hnode := nodeAt_removeAll w.disk disk fileDir q hrm
        simp only [hq, hbelow, ne_eq, not_false_eq_true, decide_True, Bool.not_false,
          Bool.and_self, if_true] at hnode
        simp only []
        split <;> exact hnode
    · simp only [hlen, if_false]
      split <;> rfl

theorem deleteHandler_frame (fs : FileOperationsServer) (env : Env) (w : World) (r : Request)
    (shard q : String) (hdir : getDirectoryName env.runeCap r.filename = some shard)
    (hq : q ≠ fs.WorkingDir ++ shard) (hbelow : below (fs.WorkingDir ++ shard) q = false) :
    (deleteHandler fs env w r).world.disk.nodeAt q = w.disk.nodeAt q := by
  have hpath : q ≠ fs.WorkingDir ++ shard ++ "/" ++ r.filename := by
    intro h
    rw [h, below_path] at hbelow
    exact absurd hbelow (by decide)
  unfold deleteHandler
  simp only [hdir]
  split
  · rfl
  · cases hstat : osStat w.disk (fs.WorkingDir ++ shard ++ "/" ++ r.filename) with
    | error err => rfl
    | ok size =>
      simp only []
      split
      · rfl
      · cases hrem : osRemove w.disk (fs.WorkingDir ++ shard ++ "/" ++ r.filename) with
        | error err =>
          simp only []
          split <;> rfl
        | ok disk =>
          simp only []
          rw [deleteCleanup_frame fs _ _ _ q hq hbelow]
          have hdisk : disk = w.disk.erase (fs.WorkingDir ++ shard ++ "/" ++ r.filename) := by
            unfold osRemove at hrem
            split at hrem
            · exact (Except.ok.inj hrem).symm
            · split at hrem
              · exact (Except.ok.inj hrem).symm
              · simp at hrem
            · simp at hrem
          simp only [hdisk, nodeAt_erase, if_neg hpath]

/-- C16, amended: for every identifier for which the handlers get a shard name,
that contains no separator and does not begin with `..`, the path built is
`WorkingDir + shard + "/" + name` where neither shard nor name holds a separator
or a `..` component; `downloadHandler` reads the medium at that path only (its
result is the same on any medium that agrees there), and `deleteHandler` changes
nothing outside the shard directory and what lies below it. -/
theorem plain_identifier_is_confined (fs : FileOperationsServer) (env : Env) (w : World)
    (r : Request) (shard : String)
    (hdir : getDirectoryName env.runeCap r.filename = some shard)
    (hsep : '/' ∉ r.filename.data)
    (hdots : r.filename.data.take 2 ≠ ['.', '.']) :
    objectPath fs env.runeCap r.filename
      = some (fs.WorkingDir ++ shard ++ "/" ++ r.filename) ∧
    hasSeparator shard = false ∧ hasParentComponent shard = false ∧
    hasSeparator r.filename = false ∧ hasParentComponent r.filename = false ∧
    (∀ d2 : FileSystem,
      d2.nodeAt (fs.WorkingDir ++ shard ++ "/" ++ r.filename)
        = w.disk.nodeAt (fs.WorkingDir ++ shard ++ "/" ++ r.filename) →
      d2.dirSize = w.disk.dirSize →
      (downloadHandler fs env { w with disk := d2 } r).result
        = (downloadHandler fs env w r).result) ∧
    (∀ q, q ≠ fs.WorkingDir ++ shard → below (fs.WorkingDir ++ shard) q = false →
      (deleteHandler fs env w r).world.disk.nodeAt q = w.disk.nodeAt q) := by
  obtain ⟨hshardsep, hsharddots⟩ := shard_confined env.runeCap r.filename shard hsep hdots hdir
  have hname : r.filename.data ≠ ['.', '.'] := by
    intro h
    apply hdots
    rw [h]
    rfl
  refine ⟨by simp [objectPath, hdir], hasSeparator_false _ hshardsep, ?_,
    hasSeparator_false _ hsep, ?_, ?_, ?_⟩
  · rw [hasParentComponent_no_separator _ hshardsep]
    simp [hsharddots]
  · rw [hasParentComponent_no_separator _ hsep]
    simp [hname]
  · intro d2 hnode hsize
    exact download_reads_only_object fs env w r shard d2 hdir hnode hsize
  · intro q hq hbelow
    exact deleteHandler_frame fs env w r shard q hdir hq hbelow

/-- C16, amended claim at the identifier `sampleId`. -/
theorem plain_identifier_is_confined_witness :
    ¬ (requestFor sampleId).filename.utf8ByteSize < 2 ∧
    getDirectoryName (sampleEnv 0).runeCap (requestFor sampleId).filename = some "ab" ∧
    objectPath (limitsOnly 0 0) (sampleEnv 0).runeCap (requestFor sampleId).filename
      = some ((limitsOnly 0 0).WorkingDir ++ "ab" ++ "/" ++ (requestFor sampleId).filename) ∧
    hasSeparator "ab" = false ∧ hasParentComponent "ab" = false :=
  have h := plain_identifier_is_confined (limitsOnly 0 0) (sampleEnv 0) oneObjectWorld
    (requestFor sampleId) "ab" (by decide) (by decide) (by decide)
  ⟨by decide, by decide, h.1, h.2.1, h.2.2.1⟩

/-- C11 at a concrete window: one ticket recorded at 0, decision at 1.001 s. -/
theorem expired_ticket_has_no_influence_witness :
    (runCalls (limitsOnly 1 0) emptyTable [⟨sampleKey, 7, 0⟩]) sampleKey
      = some ([] ++ (⟨7, 0⟩ : RequestTicket) :: []) ∧
    (⟨7, 0⟩ : RequestTicket).Timestamp + 1001000000 ≤ 1001000000 ∧
    (IsRequestAllowed (limitsOnly 1 0) (runCalls (limitsOnly 1 0) emptyTable [⟨sampleKey, 7, 0⟩])
        sampleKey 9 1001000000).1
      = (IsRequestAllowed (limitsOnly 1 0) (emptyTable.store sampleKey ([] ++ []))
        sampleKey 9 1001000000).1 :=
  ⟨by decide, by decide,
    (expired_ticket_has_no_influence (limitsOnly 1 0)
      (runCalls (limitsOnly 1 0) emptyTable [⟨sampleKey, 7, 0⟩])
      (emptyTable.store sampleKey ([] ++ [])) sampleKey [] [] ⟨7, 0⟩ 9 1001000000
      (by decide) (by decide) (by decide)).2.2⟩

/-- C13 at a concrete window: tickets at 0, 0.5 s and 1.2 s swept at 1.3 s. -/
theorem sweep_step_trims_window_witness :
    (emptyTable.store sampleKey [⟨1, 0⟩, ⟨2, 500000000⟩, ⟨3, 1200000000⟩]) sampleKey
      = some [⟨1, 0⟩, ⟨2, 500000000⟩, ⟨3, 1200000000⟩] ∧
    List.Pairwise (fun a b : RequestTicket => a.Timestamp ≤ b.Timestamp)
      [⟨1, 0⟩, ⟨2, 500000000⟩, ⟨3, 1200000000⟩] ∧
    sweepKey (emptyTable.store sampleKey [⟨1, 0⟩, ⟨2, 500000000⟩, ⟨3, 1200000000⟩])
        sampleKey 1300000000 sampleKey
      = some [⟨2, 500000000⟩, ⟨3, 1200000000⟩] :=
  have hsorted : List.Pairwise (fun a b : RequestTicket => a.Timestamp ≤ b.Timestamp)
      [⟨1, 0⟩, ⟨2, 500000000⟩, ⟨3, 1200000000⟩] := by
    decide
  ⟨by decide, hsorted,
    ((sweep_step_trims_window (emptyTable.store sampleKey [⟨1, 0⟩, ⟨2, 500000000⟩, ⟨3, 1200000000⟩])
      sampleKey 1300000000 [⟨1, 0⟩, ⟨2, 500000000⟩, ⟨3, 1200000000⟩] (by decide) hsorted).2.1
      ⟨⟨2, 500000000⟩, by decide, by decide⟩).trans (by decide)⟩

end Storageapi
